import Mathlib

/-! # soc-empty-mbedtls: `app.c`

A shallow embedding of the advertising-data scanner (`check_uuid`,
`process_scan_response`) and of the event dispatch of `appMain`, followed by
theorems about them.

Conventions of the embedding

* A `uint8` is a `Nat`; the payload `pResp->data` is the list of its `data.len` bytes.
* A pointer into the payload (`&data[j]`) is the suffix `data.drop j`; reading element
  `k` through it is `(data.drop j)[k]?`, which is `none` exactly when `j + k` lies
  outside the payload.  A read outside the payload makes the computation stop with
  `Outcome.out_of_bounds`.
* The `int` cursors `i`, `j` never become negative and never overflow (they stay
  below `3 * 256`), so they are natural numbers; the guard of the outer loop is
  evaluated over `Int`, as C does after integer promotion.
* Loops are recursive functions on a step budget; `Outcome.out_of_fuel` is the result
  of an exhausted budget.
* `printLog` calls are not modelled.
-/

namespace App

/-! ## Results of a computation that reads memory -/

/-- Result of running a piece of the program: a value, a read outside the payload, or
an exhausted step budget. -/
inductive Outcome (α : Type) where
  | val (a : α)
  | out_of_bounds
  | out_of_fuel
  deriving DecidableEq, Repr

/-! ## Constants of `app.c` -/

/-- DTLS Tunnel Service, 86934d83-630e-4f8c-a9a2-82ede9f87aa9 (`app.c`, line 34). -/
def dtls_service_uuid : List Nat :=
  [0x86,0x93,0x4d,0x83,0x63,0x0e,0x4f,0x8c,0xa9,0xa2,0x82,0xed,0xe9,0xf8,0x7a,0xa9]

/-! ## `check_uuid` -/

/-- The `for` loop of `check_uuid`, with `n` iterations left and loop variable `i`:
`if (*(uuid2 + (len - i - 1)) != *(uuid1 + i)) return match;`, and `match = true`
once the loop is over. -/
def check_uuid_loop (uuid1 uuid2 : List Nat) (len : Nat) : Nat → Nat → Outcome Bool
  | 0, _ => Outcome.val true
  | n + 1, i =>
    match uuid2[len - i - 1]?, uuid1[i]? with
    | some b, some a =>
      if b ≠ a then Outcome.val false else check_uuid_loop uuid1 uuid2 len n (i + 1)
    | _, _ => Outcome.out_of_bounds

/-- Embedding of `check_uuid(uuid1, uuid2, len)`: `i` runs from `0` to `len - 1`. -/
def check_uuid (uuid1 uuid2 : List Nat) (len : Nat) : Outcome Bool :=
  check_uuid_loop uuid1 uuid2 len len 0

/-! ## `process_scan_response` -/

/-- The `do { ... } while (j < i + ad_len)` loop of `process_scan_response`; `stop` is
`i + ad_len`.  The value `true` stands for the `return 1` inside the loop, `false` for
leaving the loop. -/
def uuid_list_loop (data : List Nat) (stop : Nat) : Nat → Nat → Outcome Bool
  | 0, _ => Outcome.out_of_fuel
  | fuel + 1, j =>
    match check_uuid dtls_service_uuid (data.drop j) 16 with
    | Outcome.val true => Outcome.val true
    | Outcome.val false =>
      if j + 16 < stop then uuid_list_loop data stop fuel (j + 16) else Outcome.val false
    | Outcome.out_of_bounds => Outcome.out_of_bounds
    | Outcome.out_of_fuel => Outcome.out_of_fuel

/-- The `while (i < (pResp->data.len - 1))` loop of `process_scan_response`. -/
def ad_record_loop (data : List Nat) : Nat → Nat → Outcome Int
  | 0, _ => Outcome.out_of_fuel
  | fuel + 1, i =>
    if (i : Int) < (data.length : Int) - 1 then
      match data[i]?, data[i + 1]? with
      | some ad_len, some ad_type =>
        if ad_type = 0x06 ∨ ad_type = 0x07 then
          match uuid_list_loop data (i + ad_len) (data.length + 1) (i + 2) with
          | Outcome.val true => Outcome.val 1
          | Outcome.val false => ad_record_loop data fuel (i + ad_len + 1)
          | Outcome.out_of_bounds => Outcome.out_of_bounds
          | Outcome.out_of_fuel => Outcome.out_of_fuel
        else ad_record_loop data fuel (i + ad_len + 1)
      | _, _ => Outcome.out_of_bounds
    else Outcome.val 0

/-- Embedding of `process_scan_response(pResp)` on the payload `pResp->data`. -/
def process_scan_response (data : List Nat) : Outcome Int :=
  ad_record_loop data (data.length + 1) 0

/-! ## Build-time configuration and SDK constants

`app.h`, `gatt_db.h` and the Gecko SDK headers are not part of the sources at hand.
The preprocessor switches and the two GATT handles used by `appMain` are parameters of
the model; SDK enumeration constants are kept symbolic. -/

/-- The preprocessor switches tested by `app.c`: `#if DTLS_SERVER`, `#if DTLS_CLIENT`
and `#if DEBUG_LEVEL`. -/
structure Config where
  DTLS_SERVER : Bool
  DTLS_CLIENT : Bool
  DEBUG_LEVEL : Nat
  deriving DecidableEq, Repr

/-- The characteristic handles of `gatt_db.h` that label the inner `switch` of `appMain`.
Two `case` labels of one `switch` are distinct constants. -/
structure GattDb where
  gattdb_dtls_in_out : Nat
  gattdb_ota_control : Nat
  distinct : gattdb_dtls_in_out ≠ gattdb_ota_control

/-- Bluetooth device address (`bd_addr`): six bytes. -/
structure bd_addr where
  addr : List Nat
  deriving DecidableEq, Repr

/-- SDK constant passed to `gecko_cmd_le_gap_discover`. -/
inductive le_gap_discover_mode where
  | le_gap_discover_generic
  deriving DecidableEq, Repr

/-- SDK constant passed as discoverable mode to `gecko_cmd_le_gap_start_advertising`. -/
inductive le_gap_discoverable_mode where
  | le_gap_general_discoverable
  deriving DecidableEq, Repr

/-- SDK constant passed as connectable mode to `gecko_cmd_le_gap_start_advertising`. -/
inductive le_gap_connectable_mode where
  | le_gap_connectable_scannable
  deriving DecidableEq, Repr

/-- SDK constant passed as address type to `gecko_cmd_le_gap_open`. -/
inductive le_gap_address_type where
  | le_gap_address_type_public
  deriving DecidableEq, Repr

/-- SDK status code passed to `gecko_cmd_gatt_server_send_user_write_response`. -/
inductive errorcode where
  | bg_err_success
  deriving DecidableEq, Repr

/-! ## Events and commands -/

/-- The fields of `struct gecko_msg_le_gap_scan_response_evt_t` that `app.c` uses. -/
structure gecko_msg_le_gap_scan_response_evt_t where
  packet_type : Nat
  address : bd_addr
  data : List Nat
  deriving DecidableEq, Repr

/-- A stack event, by the message id that `switch (BGLIB_MSG_ID(evt->header))` tests;
`other` stands for every id without a `case` label. -/
inductive Event where
  | gecko_evt_system_boot_id
  | gecko_evt_le_gap_scan_response_id (evt : gecko_msg_le_gap_scan_response_evt_t)
  | gecko_evt_le_connection_opened_id
  | gecko_evt_le_connection_closed_id (reason : Nat)
  | gecko_evt_gatt_server_user_write_request_id (connection characteristic : Nat)
  | other (id : Nat)
  deriving DecidableEq, Repr

/-- A command sent to the stack, one constructor for each `gecko_cmd_*` call of `app.c`,
with the arguments of the call. -/
inductive Cmd where
  | gecko_cmd_system_get_bt_address
  | gecko_cmd_le_gap_set_advertise_timing (handle interval_min interval_max duration maxevents : Nat)
  | gecko_cmd_le_gap_start_advertising (handle : Nat) (discover : le_gap_discoverable_mode)
      (connect : le_gap_connectable_mode)
  | gecko_cmd_le_gap_set_scan_parameters (scan_interval scan_window active : Nat)
  | gecko_cmd_le_gap_discover (mode : le_gap_discover_mode)
  | gecko_cmd_le_gap_end_procedure
  | gecko_cmd_le_gap_open (address : bd_addr) (address_type : le_gap_address_type)
  | gecko_cmd_system_reset (dfu : Nat)
  | gecko_cmd_gatt_server_send_user_write_response (connection characteristic : Nat)
      (att_errorcode : errorcode)
  | gecko_cmd_le_connection_close (connection : Nat)
  deriving DecidableEq, Repr

/-! ## `appMain` -/

/-- The mutable state of `app.c`: the flag `boot_to_dfu`. -/
structure State where
  boot_to_dfu : Nat
  deriving DecidableEq, Repr

/-- State at program start: `static uint8_t boot_to_dfu = 0;`. -/
def State.initial : State := ⟨0⟩

/-- Commands issued by `bootMessage`: under `#if DEBUG_LEVEL` it queries the local
address with `gecko_cmd_system_get_bt_address()`. -/
def bootMessage (cfg : Config) : List Cmd :=
  if cfg.DEBUG_LEVEL ≠ 0 then [Cmd.gecko_cmd_system_get_bt_address] else []

/-- One pass through the body of the `while (1)` loop of `appMain` for the event
`evt`: the new state and the commands issued, in order.  The result is `none` when
`process_scan_response` reads outside the payload (the behaviour of the C program is
then undefined). -/
def handle_event (cfg : Config) (db : GattDb) (s : State) : Event → Option (State × List Cmd)
  | Event.gecko_evt_system_boot_id =>
    some (s,
      bootMessage cfg
      ++ (if cfg.DTLS_SERVER then
            [Cmd.gecko_cmd_le_gap_set_advertise_timing 0 160 160 0 0,
             Cmd.gecko_cmd_le_gap_start_advertising 0
               le_gap_discoverable_mode.le_gap_general_discoverable
               le_gap_connectable_mode.le_gap_connectable_scannable]
          else [])
      ++ (if cfg.DTLS_CLIENT then
            [Cmd.gecko_cmd_le_gap_set_scan_parameters 320 320 0,
             Cmd.gecko_cmd_le_gap_discover le_gap_discover_mode.le_gap_discover_generic]
          else []))
  | Event.gecko_evt_le_gap_scan_response_id evt =>
    if cfg.DTLS_CLIENT then
      match process_scan_response evt.data with
      | Outcome.val r =>
        if r = 0 then some (s, [])
        else some (s, [Cmd.gecko_cmd_le_gap_end_procedure,
                       Cmd.gecko_cmd_le_gap_open evt.address
                         le_gap_address_type.le_gap_address_type_public])
      | Outcome.out_of_bounds => none
      | Outcome.out_of_fuel => none
    else some (s, [])
  | Event.gecko_evt_le_connection_opened_id => some (s, [])
  | Event.gecko_evt_le_connection_closed_id _ =>
    if s.boot_to_dfu ≠ 0 then some (s, [Cmd.gecko_cmd_system_reset 2]) else some (s, [])
  | Event.gecko_evt_gatt_server_user_write_request_id connection characteristic =>
    if characteristic = db.gattdb_dtls_in_out then some (s, [])
    else if characteristic = db.gattdb_ota_control then
      some (State.mk 1,
        [Cmd.gecko_cmd_gatt_server_send_user_write_response connection db.gattdb_ota_control
           errorcode.bg_err_success,
         Cmd.gecko_cmd_le_connection_close connection])
    else some (s, [])
  | Event.other _ => some (s, [])

/-- The `while (1)` loop of `appMain` run over the events the stack delivers, in order:
the final state and all commands issued. -/
def appMain (cfg : Config) (db : GattDb) : State → List Event → Option (State × List Cmd)
  | s, [] => some (s, [])
  | s, evt :: rest =>
    match handle_event cfg db s evt with
    | none => none
    | some (s1, cmds) =>
      match appMain cfg db s1 rest with
      | none => none
      | some (s2, more) => some (s2, cmds ++ more)

/-! ## Vocabulary of the specification

Advertising-data records as the specification describes them, used to state
properties of `process_scan_response`. -/

/-- An AD record: its type byte and its data bytes. -/
structure AdRecord where
  ad_type : Nat
  data : List Nat
  deriving DecidableEq, Repr

/-- Wire form of a record: the length byte counts the type byte and the data bytes. -/
def AdRecord.bytes (r : AdRecord) : List Nat :=
  (r.data.length + 1) :: r.ad_type :: r.data

/-- Payload made of the given records, one after the other. -/
def encode_records : List AdRecord → List Nat
  | [] => []
  | r :: rs => r.bytes ++ encode_records rs

/-- The record is a list of 128-bit service UUIDs (type 0x06 or 0x07). -/
def AdRecord.is_uuid128_list (r : AdRecord) : Prop :=
  r.ad_type = 0x06 ∨ r.ad_type = 0x07

/-- The comparison made at offset `j` of the payload succeeds: the 16 bytes from `j` on
are the reversed service UUID. -/
def matches_at (data : List Nat) (j : Nat) : Prop :=
  (data.drop j).take 16 = dtls_service_uuid.reverse

instance (data : List Nat) (j : Nat) : Decidable (matches_at data j) := by
  unfold matches_at
  infer_instance

/-- The `k`-th aligned 16-byte group of the record data is all there and equals `u`. -/
def AdRecord.group_is (r : AdRecord) (k : Nat) (u : List Nat) : Prop :=
  (r.data.drop (16 * k)).take 16 = u

/-- The configured role: scanner when only `DTLS_CLIENT` is set, advertiser when only
`DTLS_SERVER` is set. -/
inductive DeviceRole where
  | Advertiser
  | Scanner
  deriving DecidableEq, Repr

/-- Role selected by the preprocessor switches, if they select exactly one. -/
def Config.role (cfg : Config) : Option DeviceRole :=
  match cfg.DTLS_SERVER, cfg.DTLS_CLIENT with
  | true, false => some DeviceRole.Advertiser
  | false, true => some DeviceRole.Scanner
  | _, _ => none

/-- Some 0x06/0x07 record of the list holds the reversed service UUID as one of its
aligned 16-byte groups. -/
def holds_service_uuid (rs : List AdRecord) : Prop :=
  ∃ r, r ∈ rs ∧ r.is_uuid128_list ∧ ∃ k, r.group_is k dtls_service_uuid.reverse

/-- Every 0x06/0x07 record of the list has a data part of `16 * n` bytes with `n ≥ 1`
(a length byte of `1 + 16 * n`). -/
def uuid_lists_whole (rs : List AdRecord) : Prop :=
  ∀ r, r ∈ rs → r.is_uuid128_list → ∃ n, 1 ≤ n ∧ r.data.length = 16 * n

/-- Connection states of the specification (section 3).  `app.c` keeps no such
variable. -/
inductive ConnectionState where
  | Idle
  | Advertising
  | Scanning
  | Connecting
  | Connected
  deriving DecidableEq, Repr

/-- The transition table of the specification (section 4.2) has a row for the state
and the event. -/
def transition_table_has_row (db : GattDb) : ConnectionState → Event → Bool
  | ConnectionState.Idle, Event.gecko_evt_system_boot_id => true
  | ConnectionState.Scanning, Event.gecko_evt_le_gap_scan_response_id _ => true
  | ConnectionState.Connecting, Event.gecko_evt_le_connection_opened_id => true
  | ConnectionState.Advertising, Event.gecko_evt_le_connection_opened_id => true
  | ConnectionState.Connected, Event.gecko_evt_gatt_server_user_write_request_id _ ch =>
    decide (ch = db.gattdb_ota_control ∨ ch = db.gattdb_dtls_in_out)
  | ConnectionState.Connected, Event.gecko_evt_le_connection_closed_id _ => true
  | _, _ => false

/-! ## Reference algorithm of the specification

`find_service` follows the words of section 4.1 of the specification, not `app.c`: the
groups of a 0x06/0x07 record are the offsets `j` of the sub-range `[i+2, i+len)` taken
in strides of 16; a group that is not a full 16 bytes before the record end or the
payload end is skipped. -/

/-- Step 1b of the reference algorithm: the candidates of the record at `i` with length
byte `len`, from offset `j` on. -/
def find_service_groups (payload target : List Nat) (i len : Nat) : Nat → Nat → Bool
  | 0, _ => false
  | fuel + 1, j =>
    if j < i + len ∧ j + 16 ≤ i + len + 1 ∧ j + 16 ≤ payload.length then
      if (payload.drop j).take 16 = target.reverse then true
      else find_service_groups payload target i len fuel (j + 16)
    else false

/-- Step 1 of the reference algorithm: the cursor `i` walks the record headers. -/
def find_service_loop (payload target : List Nat) : Nat → Nat → Bool
  | 0, _ => false
  | fuel + 1, i =>
    if (i : Int) < (payload.length : Int) - 1 then
      match payload[i]?, payload[i + 1]? with
      | some len, some ty =>
        if (ty = 0x06 ∨ ty = 0x07) ∧
            find_service_groups payload target i len (payload.length + 1) (i + 2) = true then
          true
        else find_service_loop payload target fuel (i + len + 1)
      | _, _ => false
    else false

/-- The contract `find_service(payload, target)` of the specification. -/
def find_service (payload target : List Nat) : Bool :=
  find_service_loop payload target (payload.length + 1) 0

/-! ## Facts about `check_uuid` -/

/-- The loop of `check_uuid` never reads out of bounds when both arrays hold `len`
elements, and answers `true` exactly when every remaining position agrees. -/
theorem check_uuid_loop_spec (uuid1 uuid2 : List Nat) (len : Nat)
    (h1 : len ≤ uuid1.length) (h2 : len ≤ uuid2.length) :
    ∀ n i, i + n = len →
      ∃ b, check_uuid_loop uuid1 uuid2 len n i = Outcome.val b ∧
        (b = true ↔ ∀ k, i ≤ k → k < len → uuid2[len - k - 1]? = uuid1[k]?) := by
  intro n
  induction n with
  | zero =>
    intro i hi
    refine ⟨true, rfl, ?_⟩
    simp only [true_iff]
    intro k hk hk2
    omega
  | succ n ih =>
    intro i hi
    have hi1 : i < uuid1.length := by omega
    have hi2 : len - i - 1 < uuid2.length := by omega
    obtain ⟨b, hb, hbspec⟩ := ih (i + 1) (by omega)
    by_cases hne : uuid2[len - i - 1] ≠ uuid1[i]
    · refine ⟨false, ?_, ?_⟩
      · simp [check_uuid_loop, List.getElem?_eq_getElem hi1, List.getElem?_eq_getElem hi2, hne]
      · simp only [Bool.false_eq_true, false_iff]
        intro hall
        have := hall i (le_refl i) (by omega)
        rw [List.getElem?_eq_getElem hi1, List.getElem?_eq_getElem hi2] at this
        exact hne (Option.some.inj this)
    · refine ⟨b, ?_, ?_⟩
      · simp [check_uuid_loop, List.getElem?_eq_getElem hi1, List.getElem?_eq_getElem hi2, hne, hb]
      · rw [hbspec]
        constructor
        · intro hall k hk hk2
          by_cases hki : k = i
          · subst hki
            rw [List.getElem?_eq_getElem hi1, List.getElem?_eq_getElem hi2]
            exact congrArg some (not_not.mp hne)
          · exact hall k (by omega) hk2
        · intro hall k hk hk2
          exact hall k (by omega) hk2

/-- Position-wise agreement in reversed order is equality with the reversed list. -/
theorem reversed_agree_iff (uuid1 uuid2 : List Nat) (len : Nat)
    (h1 : uuid1.length = len) :
    (∀ k, 0 ≤ k → k < len → uuid2[len - k - 1]? = uuid1[k]?) ↔ uuid2.take len = uuid1.reverse := by
  constructor
  · intro hall
    apply List.ext_getElem?
    intro m
    by_cases hm : m < len
    · rw [List.getElem?_take_of_lt hm, List.getElem?_reverse (by omega), h1]
      have := hall (len - 1 - m) (Nat.zero_le _) (by omega)
      rw [← this]
      congr 1
      omega
    · rw [List.getElem?_eq_none (by simp; omega), List.getElem?_eq_none (by simp; omega)]
  · intro heq k _ hk
    have h3 : uuid2[len - k - 1]? = (uuid2.take len)[len - k - 1]? :=
      (List.getElem?_take_of_lt (by omega)).symm
    rw [h3, heq, List.getElem?_reverse (by omega), h1]
    congr 1
    omega

/-- When both arrays hold `len` bytes, `check_uuid` reads in bounds and answers whether
the first `len` bytes of `uuid2` are `uuid1` reversed. -/
theorem check_uuid_val (uuid1 uuid2 : List Nat) (len : Nat)
    (h1 : uuid1.length = len) (h2 : len ≤ uuid2.length) :
    check_uuid uuid1 uuid2 len = Outcome.val (decide (uuid2.take len = uuid1.reverse)) := by
  obtain ⟨b, hb, hspec⟩ := check_uuid_loop_spec uuid1 uuid2 len (by omega) h2 len 0 (by omega)
  rw [reversed_agree_iff uuid1 uuid2 len h1] at hspec
  rw [check_uuid, hb]
  congr 1
  by_cases h : uuid2.take len = uuid1.reverse
  · simp [h, hspec.mpr h]
  · cases b with
    | true => exact absurd (hspec.mp rfl) h
    | false => simp [h]

/-- A comparison at an offset with 16 bytes left reads in bounds. -/
theorem check_uuid_at (data : List Nat) (j : Nat) (h : j + 16 ≤ data.length) :
    check_uuid dtls_service_uuid (data.drop j) 16 = Outcome.val (decide (matches_at data j)) := by
  have := check_uuid_val dtls_service_uuid (data.drop j) 16 rfl (by simp; omega)
  rw [this]
  rfl

/-! ## Facts about the loops of `process_scan_response` -/

/-- One turn of the `do`/`while` loop when the comparison reads in bounds. -/
theorem uuid_list_loop_succ (data : List Nat) (stop fuel j : Nat) (h : j + 16 ≤ data.length) :
    uuid_list_loop data stop (fuel + 1) j =
      if matches_at data j then Outcome.val true
      else if j + 16 < stop then uuid_list_loop data stop fuel (j + 16)
      else Outcome.val false := by
  rw [uuid_list_loop, check_uuid_at data j h]
  by_cases hm : matches_at data j <;> simp [hm]

/-- The `do`/`while` loop ends without a fault when every comparison it can make lies
inside the payload. -/
theorem uuid_list_loop_total (data : List Nat) (stop : Nat) (hstop : stop + 15 ≤ data.length) :
    ∀ n j, j + 16 ≤ data.length → stop ≤ j + 16 * n + 16 →
      ∃ b, uuid_list_loop data stop (n + 1) j = Outcome.val b := by
  intro n
  induction n with
  | zero =>
    intro j hj hn
    rw [uuid_list_loop_succ data stop 0 j hj]
    by_cases hm : matches_at data j
    · exact ⟨true, by simp [hm]⟩
    · exact ⟨false, by simp [hm]; omega⟩
  | succ n ih =>
    intro j hj hn
    rw [uuid_list_loop_succ data stop (n + 1) j hj]
    by_cases hm : matches_at data j
    · exact ⟨true, by simp [hm]⟩
    · by_cases hlt : j + 16 < stop
      · obtain ⟨b, hb⟩ := ih (j + 16) (by omega) (by omega)
        exact ⟨b, by simp [hm, hlt, hb]⟩
      · exact ⟨false, by simp [hm, hlt]⟩

/-- The `do`/`while` loop returns through `return 1` when the `k`-th comparison it makes
succeeds and the comparisons up to it lie inside the payload. -/
theorem uuid_list_loop_hit (data : List Nat) (stop : Nat) :
    ∀ k n j, k ≤ n → j + 16 * k + 16 ≤ data.length → (k = 0 ∨ j + 16 * k < stop) →
      matches_at data (j + 16 * k) →
      uuid_list_loop data stop (n + 1) j = Outcome.val true := by
  intro k
  induction k with
  | zero =>
    intro n j _ hj _ hm
    rw [uuid_list_loop_succ data stop n j (by omega)]
    simp only [Nat.mul_zero, Nat.add_zero] at hm
    simp [hm]
  | succ k ih =>
    intro n j hn hj hstop hm
    rw [uuid_list_loop_succ data stop n j (by omega)]
    by_cases h0 : matches_at data j
    · simp [h0]
    · have hlt : j + 16 < stop := by omega
      obtain ⟨m, rfl⟩ : ∃ m, n = m + 1 := ⟨n - 1, by omega⟩
      have hm2 : matches_at data (j + 16 + 16 * k) := by
        have e : j + 16 + 16 * k = j + 16 * (k + 1) := by omega
        rw [e]; exact hm
      simp only [h0, hlt, if_true, if_false]
      exact ih m (j + 16) (by omega) (by omega) (by omega) hm2

/-- The guard `i < data.len - 1` of the outer loop, over the naturals. -/
theorem guard_iff (data : List Nat) (i : Nat) :
    ((i : Int) < (data.length : Int) - 1) ↔ i + 1 < data.length := by
  omega

/-- The outer loop returns 0 when the guard fails. -/
theorem ad_record_loop_exit (data : List Nat) (fuel i : Nat) (h : ¬ i + 1 < data.length) :
    ad_record_loop data (fuel + 1) i = Outcome.val 0 := by
  rw [ad_record_loop, if_neg (by rw [guard_iff]; exact h)]

/-- One turn of the outer loop on a record that is not a list of 128-bit UUIDs. -/
theorem ad_record_loop_skip (data : List Nat) (fuel i ad_len ad_type : Nat)
    (h0 : data[i]? = some ad_len) (h1 : data[i + 1]? = some ad_type)
    (ht : ¬ (ad_type = 0x06 ∨ ad_type = 0x07)) :
    ad_record_loop data (fuel + 1) i = ad_record_loop data fuel (i + ad_len + 1) := by
  have hlen : i + 1 < data.length := by
    by_contra hc
    rw [List.getElem?_eq_none (by omega)] at h1
    cases h1
  rw [ad_record_loop, if_pos (by rw [guard_iff]; exact hlen), h0, h1]
  simp only [if_neg ht]

/-- One turn of the outer loop on a list of 128-bit UUIDs, given the result of the
inner loop. -/
theorem ad_record_loop_list (data : List Nat) (fuel i ad_len ad_type : Nat) (b : Bool)
    (h0 : data[i]? = some ad_len) (h1 : data[i + 1]? = some ad_type)
    (ht : ad_type = 0x06 ∨ ad_type = 0x07)
    (hb : uuid_list_loop data (i + ad_len) (data.length + 1) (i + 2) = Outcome.val b) :
    ad_record_loop data (fuel + 1) i =
      if b then Outcome.val 1 else ad_record_loop data fuel (i + ad_len + 1) := by
  have hlen : i + 1 < data.length := by
    by_contra hc
    rw [List.getElem?_eq_none (by omega)] at h1
    cases h1
  rw [ad_record_loop, if_pos (by rw [guard_iff]; exact hlen), h0, h1]
  simp only [if_pos ht, hb]
  cases b <;> simp

/-! ## Payloads made of records -/

/-- Encoding distributes over concatenation of record lists. -/
theorem encode_records_append (xs ys : List AdRecord) :
    encode_records (xs ++ ys) = encode_records xs ++ encode_records ys := by
  induction xs with
  | nil => rfl
  | cons x xs ih => simp [encode_records, ih]

/-- A record takes two header bytes and its data bytes. -/
theorem AdRecord.length_bytes (r : AdRecord) : r.bytes.length = r.data.length + 2 := by
  simp [AdRecord.bytes]

/-- The header bytes and the data of a record found at offset `front.length`. -/
theorem record_at (front rest : List Nat) (r : AdRecord) :
    (front ++ (r.bytes ++ rest))[front.length]? = some (r.data.length + 1) ∧
    (front ++ (r.bytes ++ rest))[front.length + 1]? = some r.ad_type ∧
    (front ++ (r.bytes ++ rest)).length = front.length + 2 + r.data.length + rest.length ∧
    ∀ m, (front ++ (r.bytes ++ rest)).drop (front.length + 2 + m) = (r.data ++ rest).drop m := by
  refine ⟨?_, ?_, ?_, ?_⟩
  · rw [List.getElem?_append_right (le_refl _)]
    simp [AdRecord.bytes]
  · rw [List.getElem?_append_right (by omega)]
    simp [AdRecord.bytes]
  · simp [AdRecord.bytes]
    omega
  · intro m
    rw [Nat.add_assoc, List.drop_append]
    simp only [AdRecord.bytes, List.cons_append]
    rw [Nat.add_comm 2 m]
    rfl

/-- A complete group of a record is what the scanner compares at its offset. -/
theorem group_matches_at (front rest : List Nat) (r : AdRecord) (k : Nat)
    (hg : r.group_is k dtls_service_uuid.reverse) :
    16 * k + 16 ≤ r.data.length ∧
    matches_at (front ++ (r.bytes ++ rest)) (front.length + 2 + 16 * k) := by
  have hlen : 16 * k + 16 ≤ r.data.length := by
    have h := congrArg List.length hg
    simp [dtls_service_uuid] at h
    omega
  refine ⟨hlen, ?_⟩
  unfold matches_at
  rw [(record_at front rest r).2.2.2 (16 * k), List.drop_append_of_le_length (by omega),
    List.take_append_of_le_length (by simp; omega)]
  exact hg

/-- The outer loop, started at a record boundary in front of a well-formed record list
that holds the reversed service UUID in a complete group of a 0x06/0x07 record,
returns 1. -/
theorem ad_record_loop_finds (post : List AdRecord) (r : AdRecord) (k : Nat)
    (ht : r.is_uuid128_list) (hg : r.group_is k dtls_service_uuid.reverse) :
    ∀ (pre : List AdRecord) (front : List Nat) (fuel : Nat), pre.length < fuel →
      ad_record_loop (front ++ encode_records (pre ++ r :: post)) fuel front.length
        = Outcome.val 1 := by
  intro pre
  induction pre with
  | nil =>
    intro front fuel hf
    obtain ⟨f, rfl⟩ : ∃ f, fuel = f + 1 := ⟨fuel - 1, by simp at hf; omega⟩
    show ad_record_loop (front ++ (r.bytes ++ encode_records post)) (f + 1)
      front.length = Outcome.val 1
    obtain ⟨h0, h1, hl, _⟩ := record_at front (encode_records post) r
    obtain ⟨hk, hm⟩ := group_matches_at front (encode_records post) r k hg
    have hit := uuid_list_loop_hit (front ++ (r.bytes ++ encode_records post))
      (front.length + (r.data.length + 1)) k
      (front ++ (r.bytes ++ encode_records post)).length (front.length + 2)
      (by rw [hl]; omega) (by rw [hl]; omega) (by omega) hm
    rw [ad_record_loop_list _ f _ _ _ true h0 h1 ht hit]
    rfl
  | cons p ps ih =>
    intro front fuel hf
    obtain ⟨f, rfl⟩ : ∃ f, fuel = f + 1 := ⟨fuel - 1, by simp at hf; omega⟩
    have hf2 : ps.length < f := by simp at hf; omega
    show ad_record_loop (front ++ (p.bytes ++ encode_records (ps ++ r :: post))) (f + 1)
      front.length = Outcome.val 1
    obtain ⟨h0, h1, hl, _⟩ := record_at front (encode_records (ps ++ r :: post)) p
    have hrest : 18 ≤ (encode_records (ps ++ r :: post)).length := by
      have hk := (group_matches_at [] [] r k hg).1
      rw [encode_records_append]
      simp [encode_records, AdRecord.bytes]
      omega
    have hnext : ad_record_loop (front ++ (p.bytes ++ encode_records (ps ++ r :: post))) f
        (front.length + (p.data.length + 1) + 1) = Outcome.val 1 := by
      have := ih (front ++ p.bytes) f hf2
      rw [List.append_assoc] at this
      rw [← this]
      congr 1
      simp [AdRecord.bytes]
      omega
    by_cases hp : p.ad_type = 0x06 ∨ p.ad_type = 0x07
    · obtain ⟨b, hb⟩ := uuid_list_loop_total
        (front ++ (p.bytes ++ encode_records (ps ++ r :: post)))
        (front.length + (p.data.length + 1)) (by rw [hl]; omega)
        (front ++ (p.bytes ++ encode_records (ps ++ r :: post))).length (front.length + 2)
        (by rw [hl]; omega) (by rw [hl]; omega)
      rw [ad_record_loop_list _ f _ _ _ b h0 h1 hp hb]
      cases b with
      | true => rfl
      | false => simpa using hnext
    · rw [ad_record_loop_skip _ f _ _ _ h0 h1 hp]
      exact hnext

/-- C1. Every payload made of well-formed AD records, one of which has type 0x06 or
0x07 and holds the byte-reversed `dtls_service_uuid` as its `k`-th aligned 16-byte
group, makes `process_scan_response` return 1, whatever records precede and follow it
and whatever the position `k` of the group in the list. -/
theorem process_scan_response_finds_target (pre post : List AdRecord) (r : AdRecord) (k : Nat)
    (ht : r.is_uuid128_list) (hg : r.group_is k dtls_service_uuid.reverse) :
    process_scan_response (encode_records (pre ++ r :: post)) = Outcome.val 1 := by
  have h := ad_record_loop_finds post r k ht hg pre []
    ((encode_records (pre ++ r :: post)).length + 1) (by
      rw [encode_records_append]
      have hk := (group_matches_at [] [] r k hg).1
      have : pre.length ≤ (encode_records pre).length := by
        induction pre with
        | nil => simp
        | cons x xs ih => simp [encode_records, AdRecord.bytes]; omega
      simp
      omega)
  simpa [process_scan_response] using h

/-- Witness of `process_scan_response_finds_target`: a flags record, then a 0x07
record whose second group is the reversed service UUID, then a name record. -/
theorem process_scan_response_finds_target_witness :
    (AdRecord.mk 0x07
      ([0x00,0x01,0x02,0x03,0x04,0x05,0x06,0x07,0x08,0x09,0x0a,0x0b,0x0c,0x0d,0x0e,0x0f] ++
       [0xa9,0x7a,0xf8,0xe9,0xed,0x82,0xa2,0xa9,0x8c,0x4f,0x0e,0x63,0x83,0x4d,0x93,0x86])
      ).is_uuid128_list ∧
    process_scan_response (encode_records ([AdRecord.mk 0x01 [0x06]] ++
      AdRecord.mk 0x07
        ([0x00,0x01,0x02,0x03,0x04,0x05,0x06,0x07,0x08,0x09,0x0a,0x0b,0x0c,0x0d,0x0e,0x0f] ++
         [0xa9,0x7a,0xf8,0xe9,0xed,0x82,0xa2,0xa9,0x8c,0x4f,0x0e,0x63,0x83,0x4d,0x93,0x86])
      :: [AdRecord.mk 0x09 [0x41]])) = Outcome.val 1 :=
  ⟨Or.inr rfl,
   process_scan_response_finds_target [AdRecord.mk 0x01 [0x06]] [AdRecord.mk 0x09 [0x41]]
     (AdRecord.mk 0x07
       ([0x00,0x01,0x02,0x03,0x04,0x05,0x06,0x07,0x08,0x09,0x0a,0x0b,0x0c,0x0d,0x0e,0x0f] ++
        [0xa9,0x7a,0xf8,0xe9,0xed,0x82,0xa2,0xa9,0x8c,0x4f,0x0e,0x63,0x83,0x4d,0x93,0x86]))
     1 (Or.inr rfl) rfl⟩

/-- C4. `check_uuid(target, candidate, 16)` on two 16-byte arrays returns true exactly
when `candidate[15 - k] = target[k]` for every `k < 16`, that is when the candidate is
the target reversed; it always returns true or false; a candidate equal to the target
matches exactly when the target is a palindrome; and `dtls_service_uuid` does not match
itself. -/
theorem check_uuid_reversed_order (target cand : List Nat)
    (ht : target.length = 16) (hc : cand.length = 16) :
    (check_uuid target cand 16 = Outcome.val true ↔
      ∀ k, k < 16 → cand[15 - k]? = target[k]?) ∧
    (check_uuid target cand 16 = Outcome.val true ↔ cand = target.reverse) ∧
    (check_uuid target cand 16 = Outcome.val true ∨
      check_uuid target cand 16 = Outcome.val false) ∧
    (check_uuid target target 16 = Outcome.val true ↔ target.reverse = target) ∧
    check_uuid dtls_service_uuid dtls_service_uuid 16 = Outcome.val false := by
  have hv := check_uuid_val target cand 16 ht (by omega)
  have htake : cand.take 16 = cand := List.take_of_length_le (by omega)
  rw [htake] at hv
  have hrev : (check_uuid target cand 16 = Outcome.val true ↔ cand = target.reverse) := by
    rw [hv]
    constructor
    · intro h
      exact of_decide_eq_true (Outcome.val.inj h)
    · intro h
      rw [decide_eq_true h]
  refine ⟨?_, hrev, ?_, ?_, by decide⟩
  · have hr := reversed_agree_iff target cand 16 ht
    rw [htake] at hr
    rw [hrev, ← hr]
    constructor
    · intro h k hk
      have := h k (Nat.zero_le k) hk
      have e : 16 - k - 1 = 15 - k := by omega
      rw [e] at this
      exact this
    · intro h k _ hk
      have e : 16 - k - 1 = 15 - k := by omega
      rw [e]
      exact h k hk
  · rw [hv]
    by_cases h : cand = target.reverse
    · left; rw [decide_eq_true h]
    · right; rw [decide_eq_false h]
  · have hv2 := check_uuid_val target target 16 ht (by omega)
    rw [List.take_of_length_le (by omega)] at hv2
    rw [hv2]
    constructor
    · intro h
      exact (of_decide_eq_true (Outcome.val.inj h)).symm
    · intro h
      rw [decide_eq_true h.symm]

/-- Witness of `check_uuid_reversed_order`: the service UUID against its reversal. -/
theorem check_uuid_reversed_order_witness :
    check_uuid dtls_service_uuid
      [0xa9,0x7a,0xf8,0xe9,0xed,0x82,0xa2,0xa9,0x8c,0x4f,0x0e,0x63,0x83,0x4d,0x93,0x86] 16
      = Outcome.val true :=
  (check_uuid_reversed_order dtls_service_uuid
    [0xa9,0x7a,0xf8,0xe9,0xed,0x82,0xa2,0xa9,0x8c,0x4f,0x0e,0x63,0x83,0x4d,0x93,0x86]
    rfl rfl).2.1.mpr rfl

/-- C5. On the 21-byte payload `[0x02,0x01,0x06, 0x11,0x07] ++ C` with `C` of 16 bytes,
`process_scan_response` returns 1 when `C` is the reversed service UUID and 0 for every
other `C`. -/
theorem process_scan_response_scenario (C : List Nat) (hC : C.length = 16) :
    process_scan_response ([0x02,0x01,0x06,0x11,0x07] ++ C) =
      Outcome.val (if C = dtls_service_uuid.reverse then 1 else 0) := by
  have hl : ([0x02,0x01,0x06,0x11,0x07] ++ C).length = 21 := by simp [hC]
  have hm : matches_at ([0x02,0x01,0x06,0x11,0x07] ++ C) 5 ↔ C = dtls_service_uuid.reverse := by
    unfold matches_at
    have : List.drop 5 ([0x02,0x01,0x06,0x11,0x07] ++ C) = C := rfl
    rw [this, List.take_of_length_le (by omega)]
  have e1 : ad_record_loop ([0x02,0x01,0x06,0x11,0x07] ++ C) 22 0 =
      ad_record_loop ([0x02,0x01,0x06,0x11,0x07] ++ C) 21 3 :=
    ad_record_loop_skip _ 21 0 2 1 rfl rfl (by decide)
  have hb : uuid_list_loop ([0x02,0x01,0x06,0x11,0x07] ++ C) (3 + 0x11)
      (([0x02,0x01,0x06,0x11,0x07] ++ C).length + 1) (3 + 2) =
      Outcome.val (decide (C = dtls_service_uuid.reverse)) := by
    rw [uuid_list_loop_succ _ _ _ _ (by rw [hl])]
    by_cases h : C = dtls_service_uuid.reverse
    · rw [if_pos (hm.mpr h), decide_eq_true h]
    · rw [if_neg (fun hh => h (hm.mp hh)), if_neg (by decide), decide_eq_false h]
  have e2 : ad_record_loop ([0x02,0x01,0x06,0x11,0x07] ++ C) 21 3 =
      if decide (C = dtls_service_uuid.reverse) then Outcome.val 1
      else ad_record_loop ([0x02,0x01,0x06,0x11,0x07] ++ C) 20 (3 + 0x11 + 1) :=
    ad_record_loop_list _ 20 3 0x11 0x07 _ rfl (by simp) (Or.inr rfl) hb
  have e3 : ad_record_loop ([0x02,0x01,0x06,0x11,0x07] ++ C) 20 (3 + 0x11 + 1) = Outcome.val 0 :=
    ad_record_loop_exit _ 19 _ (by rw [hl]; omega)
  unfold process_scan_response
  rw [hl]
  show ad_record_loop ([0x02,0x01,0x06,0x11,0x07] ++ C) 22 0 = _
  rw [e1, e2, e3]
  by_cases h : C = dtls_service_uuid.reverse <;> simp [h]

/-- Witness of `process_scan_response_scenario`: the payload of the scenario with the
last byte of the UUID changed from 0x86 to 0x87 gives 0. -/
theorem process_scan_response_scenario_witness :
    process_scan_response ([0x02,0x01,0x06,0x11,0x07] ++
      [0xa9,0x7a,0xf8,0xe9,0xed,0x82,0xa2,0xa9,0x8c,0x4f,0x0e,0x63,0x83,0x4d,0x93,0x87])
      = Outcome.val 0 :=
  process_scan_response_scenario
    [0xa9,0x7a,0xf8,0xe9,0xed,0x82,0xa2,0xa9,0x8c,0x4f,0x0e,0x63,0x83,0x4d,0x93,0x87] rfl

/-- C2. `process_scan_response` returns 0 on the empty payload, but not on every
payload without a 0x06/0x07 record holding the reversed service UUID: the payload below
is made of two well-formed records, a 0x07 record with 10 data bytes (no complete
16-byte group) and a 0x63 record with 13 data bytes, and the function returns 1 on it,
having compared the 16 bytes that start in the first record and run into the second. -/
theorem process_scan_response_spurious_match :
    process_scan_response [] = Outcome.val 0 ∧
    (∀ r ∈ [AdRecord.mk 0x07 [0xa9,0x7a,0xf8,0xe9,0xed,0x82,0xa2,0xa9,0x8c,0x4f],
            AdRecord.mk 0x63 [0x83,0x4d,0x93,0x86,0,0,0,0,0,0,0,0,0]],
       ¬ (r.is_uuid128_list ∧ ∃ k, r.group_is k dtls_service_uuid.reverse)) ∧
    encode_records [AdRecord.mk 0x07 [0xa9,0x7a,0xf8,0xe9,0xed,0x82,0xa2,0xa9,0x8c,0x4f],
                    AdRecord.mk 0x63 [0x83,0x4d,0x93,0x86,0,0,0,0,0,0,0,0,0]] =
      [0x0b,0x07,0xa9,0x7a,0xf8,0xe9,0xed,0x82,0xa2,0xa9,0x8c,0x4f,
       0x0e,0x63,0x83,0x4d,0x93,0x86,0,0,0,0,0,0,0,0,0] ∧
    process_scan_response
      [0x0b,0x07,0xa9,0x7a,0xf8,0xe9,0xed,0x82,0xa2,0xa9,0x8c,0x4f,
       0x0e,0x63,0x83,0x4d,0x93,0x86,0,0,0,0,0,0,0,0,0] = Outcome.val 1 := by
  refine ⟨by decide, ?_, by decide, by decide⟩
  intro r hr
  simp only [List.mem_cons, List.mem_singleton, List.not_mem_nil, or_false] at hr
  rintro ⟨ht, k, hk⟩
  rcases hr with rfl | rfl
  · have h := congrArg List.length hk
    simp [dtls_service_uuid] at h
    omega
  · rcases ht with h | h <;> simp at h

/-- C3. `process_scan_response` reads outside the payload: on `[0x11, 0x07, 0xa9]`,
whose record declares 17 bytes where one is left, and on `[0x01, 0x07]`, whose record
is complete and has no data, the first comparison of `check_uuid` reads index
`2 + 15 = 17`. -/
theorem process_scan_response_reads_out_of_bounds :
    process_scan_response [0x11,0x07,0xa9] = Outcome.out_of_bounds ∧
    process_scan_response [0x01,0x07] = Outcome.out_of_bounds ∧
    check_uuid dtls_service_uuid (List.drop 2 [0x01,0x07]) 16 = Outcome.out_of_bounds := by
  decide

/-- C6. Bytes beyond the end of a 0x06/0x07 record take part in the comparison.  The
first record of each payload below is `[0x01, 0x07]` (no data bytes) or
`[0x03, 0x07, 0xa9, 0x7a]` (two data bytes, a truncated group); the function returns 1
when the bytes that follow complete the reversed service UUID, and 0 when the last of
them, at index 17, is changed. -/
theorem process_scan_response_compares_past_record_end :
    process_scan_response
      [0x01,0x07,0xa9,0x7a,0xf8,0xe9,0xed,0x82,0xa2,0xa9,0x8c,0x4f,0x0e,0x63,0x83,0x4d,0x93,0x86]
      = Outcome.val 1 ∧
    process_scan_response
      [0x03,0x07,0xa9,0x7a,0xf8,0xe9,0xed,0x82,0xa2,0xa9,0x8c,0x4f,0x0e,0x63,0x83,0x4d,0x93,0x86]
      = Outcome.val 1 ∧
    process_scan_response
      [0x03,0x07,0xa9,0x7a,0xf8,0xe9,0xed,0x82,0xa2,0xa9,0x8c,0x4f,0x0e,0x63,0x83,0x4d,0x93,0x87]
      = Outcome.val 0 := by
  decide

/-! ## Facts about `appMain` -/

/-- Only a write to `gattdb_ota_control` changes `boot_to_dfu`, and it sets it. -/
theorem handle_event_flag (cfg : Config) (db : GattDb) (s s1 : State) (evt : Event)
    (cmds : List Cmd) (h : handle_event cfg db s evt = some (s1, cmds)) :
    (s1.boot_to_dfu ≠ 0 ↔
      s.boot_to_dfu ≠ 0 ∨
      ∃ c, evt = Event.gecko_evt_gatt_server_user_write_request_id c db.gattdb_ota_control) := by
  cases evt with
  | gecko_evt_system_boot_id =>
    simp only [handle_event, Option.some.injEq, Prod.mk.injEq] at h
    rw [← h.1]; simp
  | gecko_evt_le_gap_scan_response_id evt =>
    simp only [handle_event] at h
    split at h
    · split at h
      · split at h <;>
          (simp only [Option.some.injEq, Prod.mk.injEq] at h; rw [← h.1]; simp)
      · cases h
      · cases h
    · simp only [Option.some.injEq, Prod.mk.injEq] at h
      rw [← h.1]; simp
  | gecko_evt_le_connection_opened_id =>
    simp only [handle_event, Option.some.injEq, Prod.mk.injEq] at h
    rw [← h.1]; simp
  | gecko_evt_le_connection_closed_id reason =>
    simp only [handle_event] at h
    split at h <;> (simp only [Option.some.injEq, Prod.mk.injEq] at h; rw [← h.1]; simp)
  | gecko_evt_gatt_server_user_write_request_id c ch =>
    simp only [handle_event] at h
    split at h
    · rename_i hch
      simp only [Option.some.injEq, Prod.mk.injEq] at h
      rw [← h.1]
      have := db.distinct
      simp [hch, this]
    · split at h
      · rename_i hch
        simp only [Option.some.injEq, Prod.mk.injEq] at h
        rw [← h.1]
        simp [hch]
      · rename_i hch
        simp only [Option.some.injEq, Prod.mk.injEq] at h
        rw [← h.1]
        simp [hch]
  | other id =>
    simp only [handle_event, Option.some.injEq, Prod.mk.injEq] at h
    rw [← h.1]; simp

/-- After a run, `boot_to_dfu` is set exactly when it was set before or the run held a
write to `gattdb_ota_control`. -/
theorem appMain_flag (cfg : Config) (db : GattDb) :
    ∀ (evts : List Event) (s0 s : State) (cmds : List Cmd),
      appMain cfg db s0 evts = some (s, cmds) →
      (s.boot_to_dfu ≠ 0 ↔
        s0.boot_to_dfu ≠ 0 ∨
        ∃ c, Event.gecko_evt_gatt_server_user_write_request_id c db.gattdb_ota_control ∈ evts) := by
  intro evts
  induction evts with
  | nil =>
    intro s0 s cmds h
    simp only [appMain, Option.some.injEq, Prod.mk.injEq] at h
    rw [← h.1]; simp
  | cons e rest ih =>
    intro s0 s cmds h
    simp only [appMain] at h
    cases h1 : handle_event cfg db s0 e with
    | none => rw [h1] at h; cases h
    | some p1 =>
      obtain ⟨s1, c1⟩ := p1
      rw [h1] at h
      simp only at h
      cases h2 : appMain cfg db s1 rest with
      | none => rw [h2] at h; cases h
      | some p2 =>
        obtain ⟨s2, c2⟩ := p2
        rw [h2] at h
        simp only [Option.some.injEq, Prod.mk.injEq] at h
        rw [← h.1, ih s1 s2 c2 h2, handle_event_flag cfg db s0 s1 e c1 h1]
        constructor
        · rintro ((h0 | ⟨c, rfl⟩) | ⟨c, hc⟩)
          · exact Or.inl h0
          · exact Or.inr ⟨c, List.mem_cons_self _ _⟩
          · exact Or.inr ⟨c, List.mem_cons_of_mem _ hc⟩
        · rintro (h0 | ⟨c, hc⟩)
          · exact Or.inl (Or.inl h0)
          · rcases List.mem_cons.mp hc with heq | hmem
            · exact Or.inl (Or.inr ⟨c, heq.symm⟩)
            · exact Or.inr ⟨c, hmem⟩

/-- C7. After any run of events from the initial state, a connection-closed event
issues `gecko_cmd_system_reset(2)`, and nothing else, exactly when the run held a
write to `gattdb_ota_control`; without such a write it issues no command. -/
theorem reset_on_close_iff_ota_write (cfg : Config) (db : GattDb) (evts : List Event)
    (s : State) (cmds : List Cmd) (reason : Nat)
    (hrun : appMain cfg db State.initial evts = some (s, cmds)) :
    ((∃ c, Event.gecko_evt_gatt_server_user_write_request_id c db.gattdb_ota_control ∈ evts) →
      handle_event cfg db s (Event.gecko_evt_le_connection_closed_id reason)
        = some (s, [Cmd.gecko_cmd_system_reset 2])) ∧
    ((¬ ∃ c, Event.gecko_evt_gatt_server_user_write_request_id c db.gattdb_ota_control ∈ evts) →
      handle_event cfg db s (Event.gecko_evt_le_connection_closed_id reason) = some (s, [])) := by
  have hflag := appMain_flag cfg db evts State.initial s cmds hrun
  simp only [State.initial, ne_eq, not_true_eq_false, false_or] at hflag
  constructor
  · intro hw
    have hs : s.boot_to_dfu ≠ 0 := hflag.mpr hw
    simp only [handle_event, if_pos hs]
  · intro hw
    have hs : ¬ s.boot_to_dfu ≠ 0 := fun h => hw (hflag.mp h)
    simp only [handle_event, if_neg hs]

/-- Witness of `reset_on_close_iff_ota_write`: boot, connection opened, write to the
OTA control handle 25, then the connection closes. -/
theorem reset_on_close_iff_ota_write_witness :
    appMain (Config.mk true false 0) (GattDb.mk 21 25 (by decide)) State.initial
      [Event.gecko_evt_system_boot_id, Event.gecko_evt_le_connection_opened_id,
       Event.gecko_evt_gatt_server_user_write_request_id 1 25] =
      some (State.mk 1,
        [Cmd.gecko_cmd_le_gap_set_advertise_timing 0 160 160 0 0,
         Cmd.gecko_cmd_le_gap_start_advertising 0
           le_gap_discoverable_mode.le_gap_general_discoverable
           le_gap_connectable_mode.le_gap_connectable_scannable,
         Cmd.gecko_cmd_gatt_server_send_user_write_response 1 25 errorcode.bg_err_success,
         Cmd.gecko_cmd_le_connection_close 1]) ∧
    handle_event (Config.mk true false 0) (GattDb.mk 21 25 (by decide)) (State.mk 1)
      (Event.gecko_evt_le_connection_closed_id 0x13) =
      some (State.mk 1, [Cmd.gecko_cmd_system_reset 2]) :=
  ⟨rfl,
   (reset_on_close_iff_ota_write (Config.mk true false 0) (GattDb.mk 21 25 (by decide))
      [Event.gecko_evt_system_boot_id, Event.gecko_evt_le_connection_opened_id,
       Event.gecko_evt_gatt_server_user_write_request_id 1 25]
      (State.mk 1) _ 0x13 rfl).1 ⟨1, by simp⟩⟩

/-- C8 as stated fails: in the scanner role with `DEBUG_LEVEL` set, the boot event
issues `gecko_cmd_system_get_bt_address` (from `bootMessage`) before the two scan
commands, so the commands are not the two scan commands alone. -/
theorem boot_commands_not_role_only :
    (Config.mk false true 1).role = some DeviceRole.Scanner ∧
    handle_event (Config.mk false true 1) (GattDb.mk 21 25 (by decide)) State.initial
      Event.gecko_evt_system_boot_id =
      some (State.initial,
        [Cmd.gecko_cmd_system_get_bt_address,
         Cmd.gecko_cmd_le_gap_set_scan_parameters 320 320 0,
         Cmd.gecko_cmd_le_gap_discover le_gap_discover_mode.le_gap_discover_generic]) ∧
    handle_event (Config.mk false true 1) (GattDb.mk 21 25 (by decide)) State.initial
      Event.gecko_evt_system_boot_id ≠
      some (State.initial,
        [Cmd.gecko_cmd_le_gap_set_scan_parameters 320 320 0,
         Cmd.gecko_cmd_le_gap_discover le_gap_discover_mode.le_gap_discover_generic]) := by
  refine ⟨rfl, rfl, ?_⟩
  decide

/-- C8, amended. With `DEBUG_LEVEL` 0, the boot event leaves the state unchanged and
issues, in the scanner role, exactly set-scan-parameters(320, 320, passive) then
discover(generic), and in the advertiser role exactly set-advertise-timing(0, 160, 160,
0, 0) then start-advertising; with `DEBUG_LEVEL` set, the same commands preceded by one
`gecko_cmd_system_get_bt_address`. -/
theorem boot_commands (cfg : Config) (db : GattDb) (s : State) (role : DeviceRole)
    (hrole : cfg.role = some role) :
    handle_event cfg db s Event.gecko_evt_system_boot_id =
      some (s,
        (if cfg.DEBUG_LEVEL = 0 then [] else [Cmd.gecko_cmd_system_get_bt_address]) ++
        (match role with
         | DeviceRole.Scanner =>
           [Cmd.gecko_cmd_le_gap_set_scan_parameters 320 320 0,
            Cmd.gecko_cmd_le_gap_discover le_gap_discover_mode.le_gap_discover_generic]
         | DeviceRole.Advertiser =>
           [Cmd.gecko_cmd_le_gap_set_advertise_timing 0 160 160 0 0,
            Cmd.gecko_cmd_le_gap_start_advertising 0
              le_gap_discoverable_mode.le_gap_general_discoverable
              le_gap_connectable_mode.le_gap_connectable_scannable])) := by
  obtain ⟨srv, cli, dbg⟩ := cfg
  cases srv <;> cases cli <;> simp [Config.role] at hrole <;> subst hrole <;>
    by_cases hd : dbg = 0 <;> simp [handle_event, bootMessage, hd]

/-- Witness of `boot_commands`: the scanner role without debug output. -/
theorem boot_commands_witness :
    handle_event (Config.mk false true 0) (GattDb.mk 21 25 (by decide)) State.initial
      Event.gecko_evt_system_boot_id =
      some (State.initial,
        [Cmd.gecko_cmd_le_gap_set_scan_parameters 320 320 0,
         Cmd.gecko_cmd_le_gap_discover le_gap_discover_mode.le_gap_discover_generic]) :=
  boot_commands (Config.mk false true 0) (GattDb.mk 21 25 (by decide)) State.initial
    DeviceRole.Scanner rfl

/-- C9. With `DTLS_CLIENT` set, a scan-response event on whose payload
`process_scan_response` returns 1 issues exactly end-procedure then open-connection to
the address of that event with the public address type; one on whose payload it returns
0 issues nothing.  The state is unchanged in both cases. -/
theorem scan_response_commands (cfg : Config) (db : GattDb) (s : State)
    (evt : gecko_msg_le_gap_scan_response_evt_t) (hc : cfg.DTLS_CLIENT = true) :
    (process_scan_response evt.data = Outcome.val 1 →
      handle_event cfg db s (Event.gecko_evt_le_gap_scan_response_id evt) =
        some (s, [Cmd.gecko_cmd_le_gap_end_procedure,
                  Cmd.gecko_cmd_le_gap_open evt.address
                    le_gap_address_type.le_gap_address_type_public])) ∧
    (process_scan_response evt.data = Outcome.val 0 →
      handle_event cfg db s (Event.gecko_evt_le_gap_scan_response_id evt) = some (s, [])) := by
  constructor
  · intro h
    simp [handle_event, hc, h]
  · intro h
    simp [handle_event, hc, h]

/-- Witness of `scan_response_commands`: the scenario payload from the peer
`01:02:03:04:05:06`. -/
theorem scan_response_commands_witness :
    handle_event (Config.mk false true 0) (GattDb.mk 21 25 (by decide)) State.initial
      (Event.gecko_evt_le_gap_scan_response_id
        (gecko_msg_le_gap_scan_response_evt_t.mk 0 (bd_addr.mk [6,5,4,3,2,1])
          [0x02,0x01,0x06,0x11,0x07,
           0xa9,0x7a,0xf8,0xe9,0xed,0x82,0xa2,0xa9,0x8c,0x4f,0x0e,0x63,0x83,0x4d,0x93,0x86])) =
      some (State.initial,
        [Cmd.gecko_cmd_le_gap_end_procedure,
         Cmd.gecko_cmd_le_gap_open (bd_addr.mk [6,5,4,3,2,1])
           le_gap_address_type.le_gap_address_type_public]) :=
  (scan_response_commands (Config.mk false true 0) (GattDb.mk 21 25 (by decide)) State.initial
    (gecko_msg_le_gap_scan_response_evt_t.mk 0 (bd_addr.mk [6,5,4,3,2,1])
      [0x02,0x01,0x06,0x11,0x07,
       0xa9,0x7a,0xf8,0xe9,0xed,0x82,0xa2,0xa9,0x8c,0x4f,0x0e,0x63,0x83,0x4d,0x93,0x86])
    rfl).1 (by decide)

/-- C10. A write request on `gattdb_ota_control` from connection `c` sets `boot_to_dfu`
to 1 and issues exactly send-user-write-response(`c`, `gattdb_ota_control`, success)
then connection-close(`c`); no reset command is among them. -/
theorem ota_write_commands (cfg : Config) (db : GattDb) (s : State) (c : Nat) :
    handle_event cfg db s
        (Event.gecko_evt_gatt_server_user_write_request_id c db.gattdb_ota_control) =
      some (State.mk 1,
        [Cmd.gecko_cmd_gatt_server_send_user_write_response c db.gattdb_ota_control
           errorcode.bg_err_success,
         Cmd.gecko_cmd_le_connection_close c]) ∧
    ∀ dfu, Cmd.gecko_cmd_system_reset dfu ∉
      [Cmd.gecko_cmd_gatt_server_send_user_write_response c db.gattdb_ota_control
         errorcode.bg_err_success,
       Cmd.gecko_cmd_le_connection_close c] := by
  constructor
  · have hd : ¬ db.gattdb_ota_control = db.gattdb_dtls_in_out := fun h => db.distinct h.symm
    simp [handle_event, hd]
  · intro dfu
    simp

/-- C11. With `boot_to_dfu` 0, a connection-closed event issues no command at all, in
every configuration: the `else` branch of `appMain` holds only the commented-out call
`gecko_cmd_le_gap_start_advertising`, so neither advertising nor discovery is started
again. -/
theorem connection_closed_restarts_nothing (cfg : Config) (db : GattDb) (reason : Nat) :
    handle_event cfg db (State.mk 0) (Event.gecko_evt_le_connection_closed_id reason) =
      some (State.mk 0, []) ∧
    handle_event (Config.mk true false 0) db (State.mk 0)
      (Event.gecko_evt_le_connection_closed_id reason) ≠
      some (State.mk 0,
        [Cmd.gecko_cmd_le_gap_start_advertising 0
           le_gap_discoverable_mode.le_gap_general_discoverable
           le_gap_connectable_mode.le_gap_connectable_scannable]) := by
  constructor
  · simp [handle_event]
  · simp [handle_event]

/-- C12 as stated fails.  The table has no row for a scan response in state
`Connecting`, yet a matching scan response issues end-procedure and open-connection;
it has no row for a write request in state `Idle`, yet a write on the OTA control
handle sets `boot_to_dfu` and issues the write response and the close. -/
theorem unlisted_event_not_noop :
    transition_table_has_row (GattDb.mk 21 25 (by decide)) ConnectionState.Connecting
      (Event.gecko_evt_le_gap_scan_response_id
        (gecko_msg_le_gap_scan_response_evt_t.mk 0 (bd_addr.mk [6,5,4,3,2,1])
          [0x11,0x07,
           0xa9,0x7a,0xf8,0xe9,0xed,0x82,0xa2,0xa9,0x8c,0x4f,0x0e,0x63,0x83,0x4d,0x93,0x86]))
      = false ∧
    handle_event (Config.mk false true 0) (GattDb.mk 21 25 (by decide)) State.initial
      (Event.gecko_evt_le_gap_scan_response_id
        (gecko_msg_le_gap_scan_response_evt_t.mk 0 (bd_addr.mk [6,5,4,3,2,1])
          [0x11,0x07,
           0xa9,0x7a,0xf8,0xe9,0xed,0x82,0xa2,0xa9,0x8c,0x4f,0x0e,0x63,0x83,0x4d,0x93,0x86]))
      = some (State.initial,
          [Cmd.gecko_cmd_le_gap_end_procedure,
           Cmd.gecko_cmd_le_gap_open (bd_addr.mk [6,5,4,3,2,1])
             le_gap_address_type.le_gap_address_type_public]) ∧
    transition_table_has_row (GattDb.mk 21 25 (by decide)) ConnectionState.Idle
      (Event.gecko_evt_gatt_server_user_write_request_id 1 25) = false ∧
    handle_event (Config.mk true false 0) (GattDb.mk 21 25 (by decide)) State.initial
      (Event.gecko_evt_gatt_server_user_write_request_id 1 25)
      = some (State.mk 1,
          [Cmd.gecko_cmd_gatt_server_send_user_write_response 1 25 errorcode.bg_err_success,
           Cmd.gecko_cmd_le_connection_close 1]) := by
  refine ⟨rfl, ?_, rfl, rfl⟩
  decide

/-- C12, amended.  The handlers do not look at a connection state.  In a state for
which the table has no row, an event is a no-op when it is a connection-opened event, a
write on a handle other than the OTA control handle, an event without a `case` label,
a scan response without `DTLS_CLIENT` or on which `process_scan_response` returns 0, or
a connection-closed event with `boot_to_dfu` 0; a scan response on which
`process_scan_response` returns 1 issues end-procedure and open-connection, and a write
on the OTA control handle sets `boot_to_dfu` and issues the write response and the
close. -/
theorem unlisted_event_effect (cfg : Config) (db : GattDb) (st : ConnectionState) (s : State)
    (e : Event) (_hrow : transition_table_has_row db st e = false) :
    ((e = Event.gecko_evt_le_connection_opened_id ∨
      (∃ c ch, e = Event.gecko_evt_gatt_server_user_write_request_id c ch ∧
        ch ≠ db.gattdb_ota_control) ∨
      (∃ id, e = Event.other id) ∨
      (∃ evt, e = Event.gecko_evt_le_gap_scan_response_id evt ∧
        (cfg.DTLS_CLIENT = false ∨ process_scan_response evt.data = Outcome.val 0)) ∨
      (∃ reason, e = Event.gecko_evt_le_connection_closed_id reason ∧ s.boot_to_dfu = 0)) →
      handle_event cfg db s e = some (s, [])) ∧
    (∀ evt, e = Event.gecko_evt_le_gap_scan_response_id evt → cfg.DTLS_CLIENT = true →
      process_scan_response evt.data = Outcome.val 1 →
      handle_event cfg db s e =
        some (s, [Cmd.gecko_cmd_le_gap_end_procedure,
                  Cmd.gecko_cmd_le_gap_open evt.address
                    le_gap_address_type.le_gap_address_type_public])) ∧
    (∀ c, e = Event.gecko_evt_gatt_server_user_write_request_id c db.gattdb_ota_control →
      handle_event cfg db s e =
        some (State.mk 1,
          [Cmd.gecko_cmd_gatt_server_send_user_write_response c db.gattdb_ota_control
             errorcode.bg_err_success,
           Cmd.gecko_cmd_le_connection_close c])) := by
  refine ⟨?_, ?_, ?_⟩
  · rintro (rfl | ⟨c, ch, rfl, hch⟩ | ⟨id, rfl⟩ | ⟨evt, rfl, hc | hp⟩ | ⟨reason, rfl, hs⟩)
    · rfl
    · by_cases h : ch = db.gattdb_dtls_in_out <;> simp [handle_event, h, hch]
    · rfl
    · simp [handle_event, hc]
    · by_cases hc : cfg.DTLS_CLIENT = true <;> simp [handle_event, hc, hp]
    · simp [handle_event, hs]
  · rintro evt rfl hc hp
    simp [handle_event, hc, hp]
  · rintro c rfl
    have hd : ¬ db.gattdb_ota_control = db.gattdb_dtls_in_out := fun h => db.distinct h.symm
    simp [handle_event, hd]

/-- Witness of `unlisted_event_effect`: a matching scan response in state
`Connecting`. -/
theorem unlisted_event_effect_witness :
    handle_event (Config.mk false true 0) (GattDb.mk 21 25 (by decide)) State.initial
      (Event.gecko_evt_le_gap_scan_response_id
        (gecko_msg_le_gap_scan_response_evt_t.mk 0 (bd_addr.mk [6,5,4,3,2,1])
          [0x11,0x07,
           0xa9,0x7a,0xf8,0xe9,0xed,0x82,0xa2,0xa9,0x8c,0x4f,0x0e,0x63,0x83,0x4d,0x93,0x86]))
      = some (State.initial,
          [Cmd.gecko_cmd_le_gap_end_procedure,
           Cmd.gecko_cmd_le_gap_open (bd_addr.mk [6,5,4,3,2,1])
             le_gap_address_type.le_gap_address_type_public]) :=
  (unlisted_event_effect (Config.mk false true 0) (GattDb.mk 21 25 (by decide))
    ConnectionState.Connecting State.initial
    (Event.gecko_evt_le_gap_scan_response_id
      (gecko_msg_le_gap_scan_response_evt_t.mk 0 (bd_addr.mk [6,5,4,3,2,1])
        [0x11,0x07,
         0xa9,0x7a,0xf8,0xe9,0xed,0x82,0xa2,0xa9,0x8c,0x4f,0x0e,0x63,0x83,0x4d,0x93,0x86]))
    rfl).2.1 _ rfl rfl (by decide)

/-- C13. A connection-opened event, a write request on any handle other than the OTA
control handle (the tunnel handle included) and an event without a `case` label issue
no command and leave the state, hence `boot_to_dfu`, unchanged, in every state and
configuration. -/
theorem unhandled_events_are_noops (cfg : Config) (db : GattDb) (s : State) (e : Event)
    (he : e = Event.gecko_evt_le_connection_opened_id ∨
      (∃ c ch, e = Event.gecko_evt_gatt_server_user_write_request_id c ch ∧
        ch ≠ db.gattdb_ota_control) ∨
      (∃ id, e = Event.other id)) :
    handle_event cfg db s e = some (s, []) := by
  rcases he with rfl | ⟨c, ch, rfl, hch⟩ | ⟨id, rfl⟩
  · rfl
  · by_cases h : ch = db.gattdb_dtls_in_out <;> simp [handle_event, h, hch]
  · rfl

/-- Witness of `unhandled_events_are_noops`: a write on the tunnel handle 21 with
`boot_to_dfu` set. -/
theorem unhandled_events_are_noops_witness :
    handle_event (Config.mk true false 0) (GattDb.mk 21 25 (by decide)) (State.mk 1)
      (Event.gecko_evt_gatt_server_user_write_request_id 3 21) = some (State.mk 1, []) :=
  unhandled_events_are_noops (Config.mk true false 0) (GattDb.mk 21 25 (by decide)) (State.mk 1)
    (Event.gecko_evt_gatt_server_user_write_request_id 3 21)
    (Or.inr (Or.inl ⟨3, 21, rfl, by decide⟩))

/-- A handler leaves the state as it is, except the write on the OTA control handle,
which sets `boot_to_dfu` to 1. -/
theorem handle_event_state (cfg : Config) (db : GattDb) (s s1 : State) (evt : Event)
    (cmds : List Cmd) (h : handle_event cfg db s evt = some (s1, cmds)) :
    s1 = s ∨
    ((∃ c, evt = Event.gecko_evt_gatt_server_user_write_request_id c db.gattdb_ota_control) ∧
      s1 = State.mk 1) := by
  cases evt with
  | gecko_evt_system_boot_id =>
    simp only [handle_event, Option.some.injEq, Prod.mk.injEq] at h
    exact Or.inl h.1.symm
  | gecko_evt_le_gap_scan_response_id evt =>
    simp only [handle_event] at h
    split at h
    · split at h
      · split at h <;>
          (simp only [Option.some.injEq, Prod.mk.injEq] at h; exact Or.inl h.1.symm)
      · cases h
      · cases h
    · simp only [Option.some.injEq, Prod.mk.injEq] at h
      exact Or.inl h.1.symm
  | gecko_evt_le_connection_opened_id =>
    simp only [handle_event, Option.some.injEq, Prod.mk.injEq] at h
    exact Or.inl h.1.symm
  | gecko_evt_le_connection_closed_id reason =>
    simp only [handle_event] at h
    split at h <;>
      (simp only [Option.some.injEq, Prod.mk.injEq] at h; exact Or.inl h.1.symm)
  | gecko_evt_gatt_server_user_write_request_id c ch =>
    simp only [handle_event] at h
    split at h
    · simp only [Option.some.injEq, Prod.mk.injEq] at h
      exact Or.inl h.1.symm
    · split at h
      · rename_i hch
        simp only [Option.some.injEq, Prod.mk.injEq] at h
        exact Or.inr ⟨⟨c, by rw [hch]⟩, h.1.symm⟩
      · simp only [Option.some.injEq, Prod.mk.injEq] at h
        exact Or.inl h.1.symm
  | other id =>
    simp only [handle_event, Option.some.injEq, Prod.mk.injEq] at h
    exact Or.inl h.1.symm

/-- C18. `boot_to_dfu` starts at 0; a handler that changes it is the write on the OTA
control handle and leaves it at 1; no handler takes it from non-zero to 0; the
connection-closed handler leaves the state as it is; and once the flag is set, after
any further run of events a connection-closed event issues `gecko_cmd_system_reset(2)`. -/
theorem boot_to_dfu_monotone (cfg : Config) (db : GattDb) :
    State.initial.boot_to_dfu = 0 ∧
    (∀ s e s1 cmds, handle_event cfg db s e = some (s1, cmds) →
      (s1.boot_to_dfu ≠ s.boot_to_dfu →
        (∃ c, e = Event.gecko_evt_gatt_server_user_write_request_id c db.gattdb_ota_control) ∧
        s1.boot_to_dfu = 1) ∧
      (s.boot_to_dfu ≠ 0 → s1.boot_to_dfu ≠ 0)) ∧
    (∀ s reason, ∃ cmds,
      handle_event cfg db s (Event.gecko_evt_le_connection_closed_id reason) = some (s, cmds)) ∧
    (∀ s0 evts s cmds reason, s0.boot_to_dfu ≠ 0 →
      appMain cfg db s0 evts = some (s, cmds) →
      s.boot_to_dfu ≠ 0 ∧
      handle_event cfg db s (Event.gecko_evt_le_connection_closed_id reason) =
        some (s, [Cmd.gecko_cmd_system_reset 2])) := by
  refine ⟨rfl, ?_, ?_, ?_⟩
  · intro s e s1 cmds h
    rcases handle_event_state cfg db s s1 e cmds h with rfl | ⟨hw, rfl⟩
    · exact ⟨fun hne => absurd rfl hne, fun h0 => h0⟩
    · exact ⟨fun _ => ⟨hw, rfl⟩, fun _ => by decide⟩
  · intro s reason
    by_cases hs : s.boot_to_dfu ≠ 0
    · exact ⟨[Cmd.gecko_cmd_system_reset 2], by simp only [handle_event, if_pos hs]⟩
    · exact ⟨[], by simp only [handle_event, if_neg hs]⟩
  · intro s0 evts s cmds reason h0 hrun
    have hs : s.boot_to_dfu ≠ 0 := (appMain_flag cfg db evts s0 s cmds hrun).mpr (Or.inl h0)
    exact ⟨hs, by simp only [handle_event, if_pos hs]⟩

/-- Witness of `boot_to_dfu_monotone`: after the OTA write, a first close, a new
connection and a write on the tunnel handle, the next close still issues the reset. -/
theorem boot_to_dfu_monotone_witness :
    appMain (Config.mk true false 0) (GattDb.mk 21 25 (by decide)) (State.mk 1)
      [Event.gecko_evt_le_connection_closed_id 0x13, Event.gecko_evt_le_connection_opened_id,
       Event.gecko_evt_gatt_server_user_write_request_id 2 21] =
      some (State.mk 1, [Cmd.gecko_cmd_system_reset 2]) ∧
    handle_event (Config.mk true false 0) (GattDb.mk 21 25 (by decide)) (State.mk 1)
      (Event.gecko_evt_le_connection_closed_id 0x16) =
      some (State.mk 1, [Cmd.gecko_cmd_system_reset 2]) :=
  ⟨rfl,
   ((boot_to_dfu_monotone (Config.mk true false 0) (GattDb.mk 21 25 (by decide))).2.2.2
      (State.mk 1)
      [Event.gecko_evt_le_connection_closed_id 0x13, Event.gecko_evt_le_connection_opened_id,
       Event.gecko_evt_gatt_server_user_write_request_id 2 21]
      (State.mk 1) [Cmd.gecko_cmd_system_reset 2] 0x16 (by decide) rfl).2⟩

/-! ## Termination and header reads of `process_scan_response` -/

/-- The loop of `check_uuid` ends with a value or a read out of bounds: it is a `for`
loop of `len` turns and needs no budget. -/
theorem check_uuid_loop_ne_out_of_fuel (uuid1 uuid2 : List Nat) (len : Nat) :
    ∀ n i, check_uuid_loop uuid1 uuid2 len n i ≠ Outcome.out_of_fuel := by
  intro n
  induction n with
  | zero => intro i h; cases h
  | succ n ih =>
    intro i
    rw [check_uuid_loop]
    split
    · split
      · intro h; cases h
      · exact ih (i + 1)
    · intro h; cases h

/-- A comparison whose 16 bytes do not all lie in the payload reads out of bounds at
once: its first read is the last of the 16 bytes. -/
theorem check_uuid_short (data : List Nat) (j : Nat) (h : data.length < j + 16) :
    check_uuid dtls_service_uuid (data.drop j) 16 = Outcome.out_of_bounds := by
  have hnone : (data.drop j)[16 - 0 - 1]? = none :=
    List.getElem?_eq_none (by simp; omega)
  rw [check_uuid, check_uuid_loop, hnone]

/-- The `do`/`while` loop does not exhaust a budget of one turn for each 16 bytes left
before `stop`, whatever the payload holds. -/
theorem uuid_list_loop_fuel_stop (data : List Nat) (stop : Nat) :
    ∀ fuel j, 1 ≤ fuel → stop ≤ j + 16 * fuel →
      uuid_list_loop data stop fuel j ≠ Outcome.out_of_fuel := by
  intro fuel
  induction fuel with
  | zero => intro j h; omega
  | succ fuel ih =>
    intro j _ hstop
    rw [uuid_list_loop]
    have hc := check_uuid_loop_ne_out_of_fuel dtls_service_uuid (data.drop j) 16 16 0
    rw [← check_uuid] at hc
    split
    · intro h; cases h
    · split
      · exact ih (j + 16) (by omega) (by omega)
      · intro h; cases h
    · intro h; cases h
    · rename_i hoof
      exact absurd hoof hc

/-- The `do`/`while` loop does not exhaust a budget of one turn for each 16 bytes left
before the payload end: a turn that starts nearer to the end reads out of bounds. -/
theorem uuid_list_loop_fuel_payload (data : List Nat) (stop : Nat) :
    ∀ fuel j, 1 ≤ fuel → data.length < j + 16 * fuel →
      uuid_list_loop data stop fuel j ≠ Outcome.out_of_fuel := by
  intro fuel
  induction fuel with
  | zero => intro j h; omega
  | succ fuel ih =>
    intro j _ hlen
    by_cases hj : j + 16 ≤ data.length
    · rw [uuid_list_loop_succ data stop fuel j hj]
      split
      · intro h; cases h
      · split
        · exact ih (j + 16) (by omega) (by omega)
        · intro h; cases h
    · rw [uuid_list_loop, check_uuid_short data j (by omega)]
      intro h; cases h

/-- One turn of the outer loop when the guard holds: both header reads succeed. -/
theorem ad_record_loop_body (data : List Nat) (fuel i : Nat) (h : i + 1 < data.length) :
    ∃ ad_len ad_type, data[i]? = some ad_len ∧ data[i + 1]? = some ad_type ∧
      ad_record_loop data (fuel + 1) i =
        if ad_type = 0x06 ∨ ad_type = 0x07 then
          (match uuid_list_loop data (i + ad_len) (data.length + 1) (i + 2) with
           | Outcome.val true => Outcome.val 1
           | Outcome.val false => ad_record_loop data fuel (i + ad_len + 1)
           | Outcome.out_of_bounds => Outcome.out_of_bounds
           | Outcome.out_of_fuel => Outcome.out_of_fuel)
        else ad_record_loop data fuel (i + ad_len + 1) := by
  have h0 : data[i]? = some data[i] := List.getElem?_eq_getElem (by omega)
  have h1 : data[i + 1]? = some data[i + 1] := List.getElem?_eq_getElem h
  refine ⟨data[i], data[i + 1], h0, h1, ?_⟩
  rw [ad_record_loop, if_pos (by rw [guard_iff]; exact h), h0, h1]

/-- The outer loop does not exhaust a budget of one turn for each byte left before the
payload end, plus one for the last test of the guard. -/
theorem ad_record_loop_fuel (data : List Nat) :
    ∀ fuel i, 1 ≤ fuel → data.length < fuel + i →
      ad_record_loop data fuel i ≠ Outcome.out_of_fuel := by
  intro fuel
  induction fuel with
  | zero => intro i h; omega
  | succ fuel ih =>
    intro i _ hlen
    by_cases hg : i + 1 < data.length
    · obtain ⟨ad_len, ad_type, _, _, hstep⟩ := ad_record_loop_body data fuel i hg
      have hin := uuid_list_loop_fuel_payload data (i + ad_len) (data.length + 1) (i + 2)
        (by omega) (by omega)
      have hrec := ih (i + ad_len + 1) (by omega) (by omega)
      rw [hstep]
      split
      · split
        · intro h; cases h
        · exact hrec
        · intro h; cases h
        · rename_i hoof
          exact absurd hoof hin
      · exact hrec
    · rw [ad_record_loop_exit data fuel i hg]
      intro h; cases h

/-- A larger budget does not change the result of the outer loop once the budget
covers the bytes left. -/
theorem ad_record_loop_fuel_succ (data : List Nat) :
    ∀ fuel i, 1 ≤ fuel → data.length < fuel + i →
      ad_record_loop data (fuel + 1) i = ad_record_loop data fuel i := by
  intro fuel
  induction fuel with
  | zero => intro i h; omega
  | succ fuel ih =>
    intro i _ hlen
    by_cases hg : i + 1 < data.length
    · obtain ⟨ad_len, ad_type, h0, h1, hstep⟩ := ad_record_loop_body data (fuel + 1) i hg
      obtain ⟨ad_len2, ad_type2, h02, h12, hstep2⟩ := ad_record_loop_body data fuel i hg
      rw [h0] at h02
      rw [h1] at h12
      cases Option.some.inj h02
      cases Option.some.inj h12
      rw [hstep, hstep2, ih (i + ad_len + 1) (by omega) (by omega)]
    · rw [ad_record_loop_exit data (fuel + 1) i hg, ad_record_loop_exit data fuel i hg]

/-- C14. `process_scan_response` ends on every payload, also with length bytes 0: its
budget is never exhausted and a larger budget gives the same result; the outer loop
from cursor `i` needs at most one turn for each byte up to the payload end (the cursor
grows by `ad_len + 1 ≥ 1`), and the inner loop from cursor `j` at most one turn for
each 16 bytes up to the record end `i + ad_len` (the cursor grows by 16). -/
theorem process_scan_response_terminates (data : List Nat) :
    process_scan_response data ≠ Outcome.out_of_fuel ∧
    (∀ fuel, data.length + 1 ≤ fuel → ad_record_loop data fuel 0 = process_scan_response data) ∧
    (∀ fuel i, 1 ≤ fuel → data.length < fuel + i →
      ad_record_loop data fuel i ≠ Outcome.out_of_fuel) ∧
    (∀ stop fuel j, 1 ≤ fuel → stop ≤ j + 16 * fuel →
      uuid_list_loop data stop fuel j ≠ Outcome.out_of_fuel) ∧
    process_scan_response [0, 0, 0, 0] = Outcome.val 0 := by
  refine ⟨ad_record_loop_fuel data (data.length + 1) 0 (by omega) (by omega), ?_,
    ad_record_loop_fuel data, fun stop => uuid_list_loop_fuel_stop data stop, by decide⟩
  intro fuel hfuel
  obtain ⟨d, rfl⟩ : ∃ d, fuel = data.length + 1 + d := ⟨fuel - (data.length + 1), by omega⟩
  induction d with
  | zero => rfl
  | succ d ih =>
    have := ad_record_loop_fuel_succ data (data.length + 1 + d) 0 (by omega) (by omega)
    rw [show data.length + 1 + (d + 1) = data.length + 1 + d + 1 from rfl, this]
    exact ih (by omega)

/-- C15. On a payload of length 0 or 1 the guard `i < data.len - 1`, evaluated over the
integers, is false at `i = 0` (for length 0 the bound is -1), so the loop body, which
holds every read of the payload, is not entered and `process_scan_response` returns
0. -/
theorem process_scan_response_short_payload (data : List Nat) (h : data.length ≤ 1) :
    process_scan_response data = Outcome.val 0 ∧
    ¬ ((0 : Nat) : Int) < (data.length : Int) - 1 ∧
    (data.length = 0 → (data.length : Int) - 1 = -1) ∧
    (∀ fuel, ad_record_loop data (fuel + 1) 0 = Outcome.val 0) := by
  refine ⟨ad_record_loop_exit data data.length 0 (by omega), by omega, by omega, ?_⟩
  intro fuel
  exact ad_record_loop_exit data fuel 0 (by omega)

/-- Witness of `process_scan_response_short_payload`: the one-byte payload `[0x07]`. -/
theorem process_scan_response_short_payload_witness :
    process_scan_response [0x07] = Outcome.val 0 :=
  (process_scan_response_short_payload [0x07] (by decide)).1

/-- A read out of bounds of the outer loop is never a header read: it happens in the
comparison of a 0x06/0x07 record whose two header bytes were read inside the payload. -/
theorem ad_record_loop_fault_origin (data : List Nat) :
    ∀ fuel i, ad_record_loop data fuel i = Outcome.out_of_bounds →
      ∃ i2 ad_len ad_type, i ≤ i2 ∧ i2 + 1 < data.length ∧
        data[i2]? = some ad_len ∧ data[i2 + 1]? = some ad_type ∧
        (ad_type = 0x06 ∨ ad_type = 0x07) ∧
        uuid_list_loop data (i2 + ad_len) (data.length + 1) (i2 + 2) = Outcome.out_of_bounds := by
  intro fuel
  induction fuel with
  | zero =>
    intro i h
    rw [ad_record_loop] at h
    cases h
  | succ fuel ih =>
    intro i h
    by_cases hg : i + 1 < data.length
    · obtain ⟨ad_len, ad_type, h0, h1, hstep⟩ := ad_record_loop_body data fuel i hg
      rw [hstep] at h
      have hrec : ad_record_loop data fuel (i + ad_len + 1) = Outcome.out_of_bounds →
          ∃ i2 ad_len ad_type, i ≤ i2 ∧ i2 + 1 < data.length ∧
            data[i2]? = some ad_len ∧ data[i2 + 1]? = some ad_type ∧
            (ad_type = 0x06 ∨ ad_type = 0x07) ∧
            uuid_list_loop data (i2 + ad_len) (data.length + 1) (i2 + 2)
              = Outcome.out_of_bounds := by
        intro hr
        obtain ⟨i2, l2, t2, hle, hrest⟩ := ih (i + ad_len + 1) hr
        exact ⟨i2, l2, t2, by omega, hrest⟩
      by_cases ht : ad_type = 0x06 ∨ ad_type = 0x07
      · rw [if_pos ht] at h
        cases hu : uuid_list_loop data (i + ad_len) (data.length + 1) (i + 2) with
        | val b =>
          rw [hu] at h
          cases b with
          | true => cases h
          | false => exact hrec h
        | out_of_bounds => exact ⟨i, ad_len, ad_type, le_refl i, hg, h0, h1, ht, hu⟩
        | out_of_fuel =>
          rw [hu] at h
          cases h
      · rw [if_neg ht] at h
        exact hrec h
    · rw [ad_record_loop_exit data fuel i hg] at h
      cases h

/-- C17. The body of the outer loop runs only under the bound `0 ≤ i` and
`i + 1 ≤ data.len - 1`: at a cursor where the bound fails the loop returns 0 at once,
reading nothing; at a cursor where it holds, the reads of the length byte at `i` and of
the type byte at `i + 1` both succeed and the turn goes on with the two bytes read.
Hence a read out of bounds, in the loop from any cursor and in
`process_scan_response`, is never a header read: it happens in the UUID comparison of
a 0x06/0x07 record whose header was read inside the payload. -/
theorem header_reads_in_bounds (data : List Nat) :
    (∀ (fuel i : Nat), ¬ (0 ≤ (i : Int) ∧ (i : Int) + 1 ≤ (data.length : Int) - 1) →
      ad_record_loop data (fuel + 1) i = Outcome.val 0) ∧
    (∀ (fuel i : Nat), (0 ≤ (i : Int) ∧ (i : Int) + 1 ≤ (data.length : Int) - 1) →
      ∃ ad_len ad_type, data[i]? = some ad_len ∧ data[i + 1]? = some ad_type ∧
        ad_record_loop data (fuel + 1) i =
          if ad_type = 0x06 ∨ ad_type = 0x07 then
            (match uuid_list_loop data (i + ad_len) (data.length + 1) (i + 2) with
             | Outcome.val true => Outcome.val 1
             | Outcome.val false => ad_record_loop data fuel (i + ad_len + 1)
             | Outcome.out_of_bounds => Outcome.out_of_bounds
             | Outcome.out_of_fuel => Outcome.out_of_fuel)
          else ad_record_loop data fuel (i + ad_len + 1)) ∧
    (∀ (fuel i : Nat), ad_record_loop data fuel i = Outcome.out_of_bounds →
      ∃ (i2 ad_len ad_type : Nat), i ≤ i2 ∧
        (0 ≤ (i2 : Int) ∧ (i2 : Int) + 1 ≤ (data.length : Int) - 1) ∧
        data[i2]? = some ad_len ∧ data[i2 + 1]? = some ad_type ∧
        (ad_type = 0x06 ∨ ad_type = 0x07) ∧
        uuid_list_loop data (i2 + ad_len) (data.length + 1) (i2 + 2)
          = Outcome.out_of_bounds) ∧
    (process_scan_response data = Outcome.out_of_bounds →
      ∃ (i2 ad_len ad_type : Nat),
        (0 ≤ (i2 : Int) ∧ (i2 : Int) + 1 ≤ (data.length : Int) - 1) ∧
        data[i2]? = some ad_len ∧ data[i2 + 1]? = some ad_type ∧
        (ad_type = 0x06 ∨ ad_type = 0x07) ∧
        uuid_list_loop data (i2 + ad_len) (data.length + 1) (i2 + 2)
          = Outcome.out_of_bounds) := by
  refine ⟨?_, ?_, ?_, ?_⟩
  · intro fuel i hb
    exact ad_record_loop_exit data fuel i (by omega)
  · intro fuel i hb
    exact ad_record_loop_body data fuel i (by omega)
  · intro fuel i h
    obtain ⟨i2, l2, t2, hle, hlt, hrest⟩ := ad_record_loop_fault_origin data fuel i h
    exact ⟨i2, l2, t2, hle, ⟨by omega, by omega⟩, hrest⟩
  · intro h
    obtain ⟨i2, l2, t2, _, hlt, hrest⟩ :=
      ad_record_loop_fault_origin data (data.length + 1) 0 h
    exact ⟨i2, l2, t2, ⟨by omega, by omega⟩, hrest⟩

/-- Witness of `header_reads_in_bounds`: on the one-byte payload `[0x05]` the bound
fails at `i = 0` and the loop returns 0 without a read; on `[0x00, 0x07]` the function
reads out of bounds, and it does so in the comparison, after both header bytes were
read inside the payload. -/
theorem header_reads_in_bounds_witness :
    ad_record_loop [0x05] (0 + 1) 0 = Outcome.val 0 ∧
    process_scan_response [0x00, 0x07] = Outcome.out_of_bounds ∧
    ∃ (i2 ad_len ad_type : Nat),
      (0 ≤ (i2 : Int) ∧ (i2 : Int) + 1 ≤ (([0x00, 0x07] : List Nat).length : Int) - 1) ∧
      ([0x00, 0x07] : List Nat)[i2]? = some ad_len ∧
      ([0x00, 0x07] : List Nat)[i2 + 1]? = some ad_type ∧
      (ad_type = 0x06 ∨ ad_type = 0x07) ∧
      uuid_list_loop [0x00, 0x07] (i2 + ad_len) (([0x00, 0x07] : List Nat).length + 1) (i2 + 2)
        = Outcome.out_of_bounds :=
  ⟨(header_reads_in_bounds [0x05]).1 0 0 (by decide), by decide,
   (header_reads_in_bounds [0x00, 0x07]).2.2.2 (by decide)⟩

/-! ## `process_scan_response` against the reference algorithm -/

/-- A complete group of a record is exactly what is compared at its offset. -/
theorem matches_at_group (front rest : List Nat) (r : AdRecord) (k : Nat)
    (hk : 16 * k + 16 ≤ r.data.length) :
    matches_at (front ++ (r.bytes ++ rest)) (front.length + 2 + 16 * k) ↔
      r.group_is k dtls_service_uuid.reverse := by
  unfold matches_at AdRecord.group_is
  rw [(record_at front rest r).2.2.2 (16 * k), List.drop_append_of_le_length (by omega),
    List.take_append_of_le_length (by simp; omega)]

/-- A group equal to the reversed service UUID is complete. -/
theorem group_is_complete (r : AdRecord) (k : Nat)
    (hg : r.group_is k dtls_service_uuid.reverse) : 16 * k + 16 ≤ r.data.length := by
  have h := congrArg List.length hg
  simp [dtls_service_uuid] at h
  omega

/-- On a record whose data is `n` whole groups, the `do`/`while` loop started at group
`m` compares the groups `m`, ..., `n - 1` and nothing else. -/
theorem uuid_list_loop_whole (front rest : List Nat) (r : AdRecord) (n : Nat)
    (hn : r.data.length = 16 * n) :
    ∀ fuel m, m < n → n - m ≤ fuel →
      ∃ b, uuid_list_loop (front ++ (r.bytes ++ rest)) (front.length + (r.data.length + 1))
          fuel (front.length + 2 + 16 * m) = Outcome.val b ∧
        (b = true ↔ ∃ k, m ≤ k ∧ k < n ∧ r.group_is k dtls_service_uuid.reverse) := by
  have hl := (record_at front rest r).2.2.1
  intro fuel
  induction fuel with
  | zero => intro m hm hf; omega
  | succ fuel ih =>
    intro m hm hf
    have hmk := matches_at_group front rest r m (by omega)
    rw [uuid_list_loop_succ _ _ fuel _ (by rw [hl]; omega)]
    by_cases h0 : matches_at (front ++ (r.bytes ++ rest)) (front.length + 2 + 16 * m)
    · refine ⟨true, by rw [if_pos h0], ?_⟩
      simp only [true_iff]
      exact ⟨m, le_refl m, hm, hmk.mp h0⟩
    · rw [if_neg h0]
      by_cases hlt : front.length + 2 + 16 * m + 16 < front.length + (r.data.length + 1)
      · rw [if_pos hlt]
        have e : front.length + 2 + 16 * m + 16 = front.length + 2 + 16 * (m + 1) := by omega
        rw [e]
        obtain ⟨b, hb, hspec⟩ := ih (m + 1) (by omega) (by omega)
        refine ⟨b, hb, ?_⟩
        rw [hspec]
        constructor
        · rintro ⟨k, hk1, hk2, hg⟩
          exact ⟨k, by omega, hk2, hg⟩
        · rintro ⟨k, hk1, hk2, hg⟩
          by_cases hkm : k = m
          · subst hkm
            exact absurd (hmk.mpr hg) h0
          · exact ⟨k, by omega, hk2, hg⟩
      · rw [if_neg hlt]
        refine ⟨false, rfl, ?_⟩
        simp only [Bool.false_eq_true, false_iff]
        rintro ⟨k, hk1, hk2, hg⟩
        have hkm : k = m := by omega
        subst hkm
        exact h0 (hmk.mpr hg)

/-- The records of a list hold the service UUID when the first one does or the others
do. -/
theorem holds_service_uuid_cons (p : AdRecord) (ps : List AdRecord) :
    holds_service_uuid (p :: ps) ↔
      (p.is_uuid128_list ∧ ∃ k, p.group_is k dtls_service_uuid.reverse) ∨
      holds_service_uuid ps := by
  unfold holds_service_uuid
  constructor
  · rintro ⟨r, hr, ht, hk⟩
    rcases List.mem_cons.mp hr with rfl | hmem
    · exact Or.inl ⟨ht, hk⟩
    · exact Or.inr ⟨r, hmem, ht, hk⟩
  · rintro (⟨ht, hk⟩ | ⟨r, hmem, ht, hk⟩)
    · exact ⟨p, List.mem_cons_self _ _, ht, hk⟩
    · exact ⟨r, List.mem_cons_of_mem _ hmem, ht, hk⟩

/-- The outer loop, started at a record boundary in front of well-formed records whose
0x06/0x07 records are whole, returns 1 when one of these holds the reversed service
UUID and 0 otherwise. -/
theorem ad_record_loop_whole :
    ∀ (rs : List AdRecord) (front : List Nat) (fuel : Nat), uuid_lists_whole rs →
      rs.length < fuel →
      ∃ b : Bool, ad_record_loop (front ++ encode_records rs) fuel front.length
          = Outcome.val (if b then 1 else 0) ∧
        (b = true ↔ holds_service_uuid rs) := by
  intro rs
  induction rs with
  | nil =>
    intro front fuel _ hf
    obtain ⟨f, rfl⟩ : ∃ f, fuel = f + 1 := ⟨fuel - 1, by simp at hf; omega⟩
    refine ⟨false, ?_, ?_⟩
    · exact ad_record_loop_exit _ f _ (by simp [encode_records])
    · simp [holds_service_uuid]
  | cons p ps ih =>
    intro front fuel hwf hf
    obtain ⟨f, rfl⟩ : ∃ f, fuel = f + 1 := ⟨fuel - 1, by simp at hf; omega⟩
    have hf2 : ps.length < f := by simp at hf; omega
    have hwf2 : uuid_lists_whole ps := fun r hr => hwf r (List.mem_cons_of_mem _ hr)
    show ∃ b : Bool, ad_record_loop (front ++ (p.bytes ++ encode_records ps)) (f + 1)
      front.length = Outcome.val (if b then 1 else 0) ∧ (b = true ↔ holds_service_uuid (p :: ps))
    obtain ⟨h0, h1, hl, _⟩ := record_at front (encode_records ps) p
    obtain ⟨b, hb, hspec⟩ := ih (front ++ p.bytes) f hwf2 hf2
    have hnext : ad_record_loop (front ++ (p.bytes ++ encode_records ps)) f
        (front.length + (p.data.length + 1) + 1) = Outcome.val (if b then 1 else 0) := by
      rw [List.append_assoc] at hb
      rw [← hb]
      congr 1
      simp [AdRecord.bytes]
      omega
    rw [holds_service_uuid_cons]
    by_cases hp : p.ad_type = 0x06 ∨ p.ad_type = 0x07
    · obtain ⟨n, hn1, hn⟩ := hwf p (List.mem_cons_self _ _) hp
      obtain ⟨bp, hbp, hbpspec⟩ := uuid_list_loop_whole front (encode_records ps) p n hn
        ((front ++ (p.bytes ++ encode_records ps)).length + 1) 0 (by omega)
        (by rw [hl]; omega)
      have hgroups : (bp = true ↔ ∃ k, p.group_is k dtls_service_uuid.reverse) := by
        rw [hbpspec]
        constructor
        · rintro ⟨k, _, _, hg⟩
          exact ⟨k, hg⟩
        · rintro ⟨k, hg⟩
          have := group_is_complete p k hg
          exact ⟨k, Nat.zero_le k, by omega, hg⟩
      rw [ad_record_loop_list _ f _ _ _ bp h0 h1 hp hbp]
      cases bp with
      | true =>
        refine ⟨true, rfl, ?_⟩
        simp only [true_iff]
        exact Or.inl ⟨hp, hgroups.mp rfl⟩
      | false =>
        refine ⟨b, by simpa using hnext, ?_⟩
        rw [hspec]
        constructor
        · intro h; exact Or.inr h
        · rintro (⟨_, hk⟩ | h)
          · exact absurd (hgroups.mpr hk) (by simp)
          · exact h
    · rw [ad_record_loop_skip _ f _ _ _ h0 h1 hp]
      refine ⟨b, hnext, ?_⟩
      rw [hspec]
      constructor
      · intro h; exact Or.inr h
      · rintro (⟨ht, _⟩ | h)
        · exact absurd ht hp
        · exact h

/-- On a record whose data is `n` whole groups, step 1b of the reference algorithm
started at group `m` answers whether one of the groups `m`, ..., `n - 1` is the
reversed service UUID. -/
theorem find_service_groups_whole (front rest : List Nat) (r : AdRecord) (n : Nat)
    (hn : r.data.length = 16 * n) :
    ∀ fuel m, m ≤ n → n - m ≤ fuel →
      (find_service_groups (front ++ (r.bytes ++ rest)) dtls_service_uuid front.length
          (r.data.length + 1) fuel (front.length + 2 + 16 * m) = true ↔
        ∃ k, m ≤ k ∧ k < n ∧ r.group_is k dtls_service_uuid.reverse) := by
  have hl := (record_at front rest r).2.2.1
  intro fuel
  induction fuel with
  | zero =>
    intro m hm hf
    simp only [find_service_groups, Bool.false_eq_true, false_iff]
    rintro ⟨k, hk1, hk2, _⟩
    omega
  | succ fuel ih =>
    intro m hm hf
    rw [find_service_groups]
    by_cases hmn : m < n
    · have hmk := matches_at_group front rest r m (by omega)
      unfold matches_at at hmk
      rw [if_pos ⟨by omega, by omega, by rw [hl]; omega⟩]
      by_cases h0 : List.take 16 (List.drop (front.length + 2 + 16 * m)
          (front ++ (r.bytes ++ rest))) = dtls_service_uuid.reverse
      · rw [if_pos h0]
        simp only [true_iff]
        exact ⟨m, le_refl m, hmn, hmk.mp h0⟩
      · rw [if_neg h0]
        have e : front.length + 2 + 16 * m + 16 = front.length + 2 + 16 * (m + 1) := by omega
        rw [e, ih (m + 1) (by omega) (by omega)]
        constructor
        · rintro ⟨k, hk1, hk2, hg⟩
          exact ⟨k, by omega, hk2, hg⟩
        · rintro ⟨k, hk1, hk2, hg⟩
          by_cases hkm : k = m
          · subst hkm
            exact absurd (hmk.mpr hg) h0
          · exact ⟨k, by omega, hk2, hg⟩
    · rw [if_neg (by omega)]
      simp only [Bool.false_eq_true, false_iff]
      rintro ⟨k, hk1, hk2, _⟩
      omega

/-- The reference algorithm, started at a record boundary in front of well-formed
records whose 0x06/0x07 records are whole, answers whether one of these holds the
reversed service UUID. -/
theorem find_service_loop_whole :
    ∀ (rs : List AdRecord) (front : List Nat) (fuel : Nat), uuid_lists_whole rs →
      rs.length < fuel →
      (find_service_loop (front ++ encode_records rs) dtls_service_uuid fuel front.length
          = true ↔ holds_service_uuid rs) := by
  intro rs
  induction rs with
  | nil =>
    intro front fuel _ hf
    obtain ⟨f, rfl⟩ : ∃ f, fuel = f + 1 := ⟨fuel - 1, by simp at hf; omega⟩
    rw [find_service_loop, if_neg (by simp [encode_records])]
    simp [holds_service_uuid]
  | cons p ps ih =>
    intro front fuel hwf hf
    obtain ⟨f, rfl⟩ : ∃ f, fuel = f + 1 := ⟨fuel - 1, by simp at hf; omega⟩
    have hf2 : ps.length < f := by simp at hf; omega
    have hwf2 : uuid_lists_whole ps := fun r hr => hwf r (List.mem_cons_of_mem _ hr)
    show (find_service_loop (front ++ (p.bytes ++ encode_records ps)) dtls_service_uuid (f + 1)
      front.length = true ↔ holds_service_uuid (p :: ps))
    obtain ⟨h0, h1, hl, _⟩ := record_at front (encode_records ps) p
    have hnext : (find_service_loop (front ++ (p.bytes ++ encode_records ps)) dtls_service_uuid f
        (front.length + (p.data.length + 1) + 1) = true ↔ holds_service_uuid ps) := by
      have hb := ih (front ++ p.bytes) f hwf2 hf2
      rw [List.append_assoc] at hb
      rw [← hb]
      have e : (front ++ p.bytes).length = front.length + (p.data.length + 1) + 1 := by
        simp [AdRecord.bytes]
        omega
      rw [e]
    have hguard : (front.length : Int) <
        ((front ++ (p.bytes ++ encode_records ps)).length : Int) - 1 := by
      rw [guard_iff, hl]
      omega
    rw [holds_service_uuid_cons, find_service_loop, if_pos hguard, h0, h1]
    simp only
    by_cases hp : p.ad_type = 0x06 ∨ p.ad_type = 0x07
    · obtain ⟨n, hn1, hn⟩ := hwf p (List.mem_cons_self _ _) hp
      have hgr := find_service_groups_whole front (encode_records ps) p n hn
        ((front ++ (p.bytes ++ encode_records ps)).length + 1) 0 (by omega)
        (by rw [hl]; omega)
      have hgroups : (find_service_groups (front ++ (p.bytes ++ encode_records ps))
          dtls_service_uuid front.length (p.data.length + 1)
          ((front ++ (p.bytes ++ encode_records ps)).length + 1) (front.length + 2) = true ↔
          ∃ k, p.group_is k dtls_service_uuid.reverse) := by
        rw [show front.length + 2 = front.length + 2 + 16 * 0 from rfl, hgr]
        constructor
        · rintro ⟨k, _, _, hg⟩
          exact ⟨k, hg⟩
        · rintro ⟨k, hg⟩
          have := group_is_complete p k hg
          exact ⟨k, Nat.zero_le k, by omega, hg⟩
      by_cases hg : ∃ k, p.group_is k dtls_service_uuid.reverse
      · rw [if_pos ⟨hp, hgroups.mpr hg⟩]
        simp only [true_iff]
        exact Or.inl ⟨hp, hg⟩
      · rw [if_neg (fun h => hg (hgroups.mp h.2)), hnext]
        constructor
        · intro h; exact Or.inr h
        · rintro (⟨_, hk⟩ | h)
          · exact absurd hk hg
          · exact h
    · rw [if_neg (fun h => hp h.1), hnext]
      constructor
      · intro h; exact Or.inr h
      · rintro (⟨ht, _⟩ | h)
        · exact absurd ht hp
        · exact h

/-- C16. On a payload that is a concatenation of well-formed records whose 0x06/0x07
records have `16 * n` data bytes with `n ≥ 1`, `process_scan_response` returns 1 when
some 0x06/0x07 record holds the reversed service UUID as one of its aligned groups and
0 otherwise, and so returns what the reference algorithm `find_service` of the
specification answers; records of other types do not enter the result. -/
theorem process_scan_response_refines_find_service (rs : List AdRecord)
    (hwf : uuid_lists_whole rs) :
    (process_scan_response (encode_records rs) = Outcome.val 1 ↔ holds_service_uuid rs) ∧
    (process_scan_response (encode_records rs) = Outcome.val 0 ↔ ¬ holds_service_uuid rs) ∧
    process_scan_response (encode_records rs) =
      Outcome.val (if find_service (encode_records rs) dtls_service_uuid then 1 else 0) := by
  have hlen : rs.length < (encode_records rs).length + 1 := by
    have : rs.length ≤ (encode_records rs).length := by
      clear hwf
      induction rs with
      | nil => simp
      | cons x xs ih => simp [encode_records, AdRecord.bytes]; omega
    omega
  obtain ⟨b, hb, hspec⟩ := ad_record_loop_whole rs [] ((encode_records rs).length + 1) hwf hlen
  have hfs := find_service_loop_whole rs [] ((encode_records rs).length + 1) hwf hlen
  simp only [List.nil_append, List.length_nil] at hb hfs
  have hb2 : process_scan_response (encode_records rs) = Outcome.val (if b then 1 else 0) := hb
  have hfs2 : (find_service (encode_records rs) dtls_service_uuid = true ↔
      holds_service_uuid rs) := hfs
  cases b with
  | true =>
    have hh : holds_service_uuid rs := hspec.mp rfl
    rw [hb2, hfs2.mpr hh]
    simp [hh]
  | false =>
    have hh : ¬ holds_service_uuid rs := fun h => by simpa using hspec.mpr h
    have hf : find_service (encode_records rs) dtls_service_uuid = false := by
      cases hv : find_service (encode_records rs) dtls_service_uuid with
      | true => exact absurd (hfs2.mp hv) hh
      | false => rfl
    rw [hb2, hf]
    simp [hh]

/-- Witness of `process_scan_response_refines_find_service`: a 0x09 record whose data
is the reversed service UUID, then a 0x07 record with one group of zeros; the result
is 0. -/
theorem process_scan_response_refines_find_service_witness :
    uuid_lists_whole
      [AdRecord.mk 0x09
         [0xa9,0x7a,0xf8,0xe9,0xed,0x82,0xa2,0xa9,0x8c,0x4f,0x0e,0x63,0x83,0x4d,0x93,0x86],
       AdRecord.mk 0x07 [0,0,0,0,0,0,0,0,0,0,0,0,0,0,0,0]] ∧
    find_service (encode_records
      [AdRecord.mk 0x09
         [0xa9,0x7a,0xf8,0xe9,0xed,0x82,0xa2,0xa9,0x8c,0x4f,0x0e,0x63,0x83,0x4d,0x93,0x86],
       AdRecord.mk 0x07 [0,0,0,0,0,0,0,0,0,0,0,0,0,0,0,0]]) dtls_service_uuid = false ∧
    process_scan_response (encode_records
      [AdRecord.mk 0x09
         [0xa9,0x7a,0xf8,0xe9,0xed,0x82,0xa2,0xa9,0x8c,0x4f,0x0e,0x63,0x83,0x4d,0x93,0x86],
       AdRecord.mk 0x07 [0,0,0,0,0,0,0,0,0,0,0,0,0,0,0,0]]) =
      Outcome.val (if find_service (encode_records
        [AdRecord.mk 0x09
           [0xa9,0x7a,0xf8,0xe9,0xed,0x82,0xa2,0xa9,0x8c,0x4f,0x0e,0x63,0x83,0x4d,0x93,0x86],
         AdRecord.mk 0x07 [0,0,0,0,0,0,0,0,0,0,0,0,0,0,0,0]]) dtls_service_uuid
        then 1 else 0) :=
  have hwf : uuid_lists_whole
      [AdRecord.mk 0x09
         [0xa9,0x7a,0xf8,0xe9,0xed,0x82,0xa2,0xa9,0x8c,0x4f,0x0e,0x63,0x83,0x4d,0x93,0x86],
       AdRecord.mk 0x07 [0,0,0,0,0,0,0,0,0,0,0,0,0,0,0,0]] := by
    intro r hr ht
    simp only [List.mem_cons, List.mem_singleton, List.not_mem_nil, or_false] at hr
    rcases hr with rfl | rfl
    · rcases ht with h | h <;> simp at h
    · exact ⟨1, le_refl 1, rfl⟩
  ⟨hwf, by decide, (process_scan_response_refines_find_service _ hwf).2.2⟩

end App
